import Mathlib

/-!
Verification of the PromptLab placeholder/directive expansion engine
(`src/utils/placeholders.ts`).  Strings are modelled as `List Char`; the
engine's regular expressions are embedded as a small backtracking matcher
whose preference order (left-biased alternation, lazy and greedy
quantifiers) mirrors the JavaScript engine on the pattern shapes the
source uses.  Stateful directives thread an explicit state record; the
potentially unbounded `while` loop of `bulkApply` is fuel-indexed, with
`none` modelling divergence.
-/

set_option maxRecDepth 10000

/-- Strings from the TypeScript source, modelled as lists of characters. -/
abbrev Str := List Char

/-- Converts a Lean string literal into the `Str` model. -/
def chars (s : String) : Str := s.data

/-- Does `s` start with `tok`? (JavaScript `String.startsWith`). -/
def startsWithStr : Str → Str → Bool
  | _, [] => true
  | [], _ :: _ => false
  | c :: cs, d :: ds => c == d && startsWithStr cs ds

/-- Index of the first occurrence of `tok` in `s` (JavaScript `String.indexOf`). -/
def idxOfAux (tok : Str) : Str → Nat → Option Nat
  | s, i =>
    if startsWithStr s tok then some i
    else
      match s with
      | [] => none
      | _ :: rest => idxOfAux tok rest (i + 1)

/-- First index at which `tok` occurs in `s`, if any. -/
def idxOf (tok s : Str) : Option Nat := idxOfAux tok s 0

/-- Does `tok` occur anywhere in `s`? -/
def occursStr (tok s : Str) : Bool := (idxOf tok s).isSome

/-- Does `s` end with `tok`? (JavaScript `String.endsWith`). -/
def endsWithStr (s tok : Str) : Bool :=
  if tok.length ≤ s.length then s.drop (s.length - tok.length) == tok else false

/-- Text strictly after the first occurrence of `tok` in `s`. -/
def afterTok (tok s : Str) : Option Str :=
  (idxOf tok s).map (fun i => s.drop (i + tok.length))

/-- Text strictly before the first occurrence of `tok` in `s`. -/
def upToTok (tok s : Str) : Option Str := (idxOf tok s).map (fun i => s.take i)

/-- JavaScript `String.toLowerCase` restricted to ASCII, as used on file paths. -/
def lowerStr (s : Str) : Str := s.map Char.toLower

/-- JavaScript `String.split(c)` for a single-character separator. -/
def splitOnChar (c : Char) : Str → List Str
  | [] => [[]]
  | d :: rest =>
    match splitOnChar c rest with
    | [] => [[d]]
    | h :: t => if d == c then [] :: h :: t else (d :: h) :: t

/-- JavaScript `String.trim`: strip leading and trailing whitespace. -/
def trimStr (s : Str) : Str :=
  ((s.dropWhile Char.isWhitespace).reverse.dropWhile Char.isWhitespace).reverse

/-- JavaScript `String.replaceAll` with a plain (non-regex, non-empty) search
string; `$`-substitution in the replacement is not exercised by the source's
call sites modelled here.  The fuel argument only bounds the recursion; any
fuel at least the input length is sufficient, and `strReplaceAll` below
supplies exactly that. -/
def strReplaceAllF (tok repl : Str) : Nat → Str → Str
  | _, [] => []
  | 0, s => s
  | n + 1, c :: rest =>
    if startsWithStr (c :: rest) tok && !tok.isEmpty then
      repl ++ strReplaceAllF tok repl n (rest.drop (tok.length - 1))
    else
      c :: strReplaceAllF tok repl n rest

/-- JavaScript `String.replaceAll` with a plain search string. -/
def strReplaceAll (tok repl s : Str) : Str := strReplaceAllF tok repl s.length s

/-- JavaScript `parseInt` on a base-10 string: `none` models `NaN`. -/
def digitsVal (s : Str) : Option Nat :=
  let ds := s.takeWhile Char.isDigit
  if ds.isEmpty then none
  else some (ds.foldl (fun a c => a * 10 + (c.toNat - 48)) 0)

/-- JavaScript `parseInt(s)` (decimal): skips leading whitespace, accepts an
optional sign, reads the leading digit run; `none` models `NaN`. -/
def parseIntJS (s : Str) : Option Int :=
  let t := s.dropWhile Char.isWhitespace
  match t with
  | '-' :: rest => (digitsVal rest).map (fun n => -(n : Int))
  | '+' :: rest => (digitsVal rest).map (fun n => (n : Int))
  | _ => (digitsVal t).map (fun n => (n : Int))

/-- JavaScript number-to-string coercion; `none` renders as `"NaN"`. -/
def jsNumToStr : Option Int → Str
  | none => chars ("NaN")
  | some i => (toString i).data

/-- JavaScript `x || d` for a possibly-absent string: the default is taken
when the value is missing or empty (falsy). -/
def jsOrStr (o : Option Str) (d : Str) : Str :=
  match o with
  | some v => if v.isEmpty then d else v
  | none => d

/-- JavaScript truthiness filter on a possibly-absent string: an empty
string is falsy. -/
def jsTruthy (o : Option Str) : Option Str :=
  match o with
  | some v => if v.isEmpty then none else some v
  | none => none

/-- Character classes appearing in the source's regular expressions. -/
inductive CCls where
  /-- a literal character -/
  | single : Char → CCls
  /-- `[a-zA-Z0-9_]` -/
  | alnumUnd : CCls
  /-- `[\s\S]` — any character -/
  | anyChar : CCls
  /-- `[^{]` -/
  | notLBrace : CCls
  /-- `.` — any character except a line terminator -/
  | dot : CCls
  /-- `[ \n\r\s]` -/
  | spaceNl : CCls
deriving DecidableEq

/-- Membership test for a character class. -/
def CCls.test : CCls → Char → Bool
  | .single c, d => d == c
  | .alnumUnd, d => d.isAlpha || d.isDigit || d == '_'
  | .anyChar, _ => true
  | .notLBrace, d => d != '\x7b'
  | .dot, d => d != '\n' && d != '\r'
  | .spaceNl, d => d == ' ' || d == '\n' || d == '\r' || d.isWhitespace

/-- Regular expressions over the constructs used by the source's patterns:
left-biased alternation, lazy (`*?`) and greedy (`*`) stars, greedy option
(`?`), negative (`(?!r)`) and positive (`(?=r)`) lookahead, and numbered
capture groups. -/
inductive Regex where
  | eps : Regex
  | cc : CCls → Regex
  | cat : Regex → Regex → Regex
  | alt : Regex → Regex → Regex
  | starL : Regex → Regex
  | starG : Regex → Regex
  | optG : Regex → Regex
  | nla : Regex → Regex
  | pla : Regex → Regex
  | group : Nat → Regex → Regex

/-- Capture-group assignments of a match (index, captured text). -/
abbrev Caps := List (Nat × Str)

/-- Record a capture, overriding an earlier value for the same group. -/
def capsSet (cps : Caps) (i : Nat) (v : Str) : Caps :=
  if cps.any (fun p => p.1 == i) then
    cps.map (fun p => if p.1 == i then (i, v) else p)
  else cps ++ [(i, v)]

/-- Combine captures of sequential sub-matches; later captures win. -/
def mergeCaps (older newer : Caps) : Caps :=
  newer.foldl (fun a p => capsSet a p.1 p.2) older

/-- Captured text of group `i`, if the group participated in the match. -/
def capGet (cps : Caps) (i : Nat) : Option Str :=
  (cps.find? (fun p => p.1 == i)).map (fun p => p.2)

/-- One level of the backtracking matcher, structural over the regex: all
ways `r` can match a prefix of `input`, in the JavaScript engine's
backtracking preference order (first element = preferred parse), each
paired with the remaining suffix and the captures of that parse.
Quantifier iterations past the first recurse through `starCall`. -/
def parsesInner (starCall : Regex → Str → List (Str × Caps)) :
    Regex → Str → List (Str × Caps)
  | .eps, input => [(input, [])]
  | .cc c, input =>
    match input with
    | [] => []
    | ch :: rest => if c.test ch then [(rest, [])] else []
  | .cat r1 r2, input =>
    (parsesInner starCall r1 input).flatMap (fun pr =>
      (parsesInner starCall r2 pr.1).map (fun pr2 =>
        (pr2.1, mergeCaps pr.2 pr2.2)))
  | .alt r1 r2, input =>
    parsesInner starCall r1 input ++ parsesInner starCall r2 input
  | .starL r1, input =>
    (input, ([] : Caps)) ::
      (parsesInner starCall r1 input).flatMap (fun pr =>
        if pr.1.length < input.length then
          (starCall (.starL r1) pr.1).map (fun pr2 => (pr2.1, mergeCaps pr.2 pr2.2))
        else [])
  | .starG r1, input =>
    ((parsesInner starCall r1 input).flatMap (fun pr =>
        if pr.1.length < input.length then
          (starCall (.starG r1) pr.1).map (fun pr2 => (pr2.1, mergeCaps pr.2 pr2.2))
        else [])) ++ [(input, [])]
  | .optG r1, input => parsesInner starCall r1 input ++ [(input, [])]
  | .nla r1, input =>
    if (parsesInner starCall r1 input).isEmpty then [(input, [])] else []
  | .pla r1, input =>
    match parsesInner starCall r1 input with
    | [] => []
    | pr :: _ => [(input, pr.2)]
  | .group i r1, input =>
    (parsesInner starCall r1 input).map (fun pr =>
      (pr.1, capsSet pr.2 i (input.take (input.length - pr.1.length))))

/-- The fuel-stratified matcher: each quantifier iteration beyond the
first descends one fuel level.  An iteration requires strict progress, so
any fuel at least the input length is sufficient and the zero-fuel cutoff
is never reached from such a start. -/
def parsesF : Nat → Regex → Str → List (Str × Caps)
  | 0 => parsesInner (fun _ _ => [])
  | n + 1 => parsesInner (parsesF n)

/-- All parses of `r` on `input`, in backtracking preference order. -/
def parses (r : Regex) (input : Str) : List (Str × Caps) :=
  parsesF input.length r input

/-- Preferred match of `r` anchored at the start of `s`: consumed length
and captures, or `none`. -/
def matchEnd (r : Regex) (s : Str) : Option (Nat × Caps) :=
  match parses r s with
  | [] => none
  | pr :: _ => some (s.length - pr.1.length, pr.2)

/-- Scan left to right for the first position where `r` matches
(JavaScript leftmost-match semantics); returns (start, length, captures). -/
def findFirstAux (r : Regex) : Str → Nat → Option (Nat × Nat × Caps)
  | s, i =>
    match matchEnd r s with
    | some (len, cps) => some (i, len, cps)
    | none =>
      match s with
      | [] => none
      | _ :: rest => findFirstAux r rest (i + 1)

/-- First match of `r` in `s`, if any. -/
def findFirst (r : Regex) (s : Str) : Option (Nat × Nat × Caps) :=
  findFirstAux r s 0

/-- Does `r` match anywhere in `s`?  (`str.match(new RegExp(key)) != null`). -/
def rMatches (r : Regex) (s : Str) : Bool := (findFirst r s).isSome

/-- The substring of `s` starting at `i` with length `len`. -/
def sliceAt (s : Str) (i len : Nat) : Str := (s.drop i).take len

/-- `String.replace(regex, repl)` without the `g` flag: replace the first
match.  Replacement is literal (no `$`-substitution); the call sites
verified below never pass `$` in the replacement. -/
def replaceFirst (r : Regex) (repl s : Str) : Str :=
  match findFirst r s with
  | none => s
  | some (i, len, _) => s.take i ++ repl ++ s.drop (i + len)

/-- Fuel-stratified form of `String.replace(regex-with-g, repl)`: replace
all leftmost non-overlapping matches, recursing on the text after each
match.  Every iteration consumes at least the matched position, so fuel
equal to the input length — which `replaceAllRec` supplies — is
sufficient; the zero-fuel fallback replaces the final match only. -/
def replaceAllF (r : Regex) (repl : Str) : Nat → Str → Str
  | 0, s =>
    (match findFirst r s with
     | none => s
     | some (i, len, _) => s.take i ++ repl ++ s.drop (i + len))
  | n + 1, s =>
    match findFirst r s with
    | none => s
    | some (i, len, _) =>
      if i + len == 0 then s.take i ++ repl ++ s.drop (i + len)
      else s.take i ++ repl ++ replaceAllF r repl n (s.drop (i + len))

/-- `String.replace(regex-with-g, repl)`: replace all leftmost
non-overlapping matches (literal replacement, as in `replaceFirst`). -/
def replaceAllRec (r : Regex) (repl s : Str) : Str := replaceAllF r repl s.length s

/-- Builds the regex for a literal string followed by `k`. -/
def litThen : Str → Regex → Regex
  | [], k => k
  | c :: cs, k => .cat (.cc (.single c)) (litThen cs k)

/-- Regex matching exactly the literal string `s`. -/
def rlit (s : Str) : Regex := litThen s .eps

/-- Greedy `r+` as `r r*`. -/
def plusG (r : Regex) : Regex := .cat r (.starG r)

/-- A persistent variable record (`PersistentVariable` in `utils/types.ts`):
name, current value, and the immutable initial value. -/
structure PersistentVariable where
  name : Str
  value : Str
  initialValue : Str
deriving DecidableEq

/-- The advanced-settings and preference flags consulted by the engine
(`placeholderSettings` in `data/default-advanced-settings.ts` plus the
`usePlaceholderStatistics` preference). -/
structure Settings where
  processPlaceholders : Bool
  allowCustomPlaceholders : Bool
  useUserShellEnvironment : Bool
  usePlaceholderStatistics : Bool
deriving DecidableEq

/-- The durable state touched by the modelled directives: the persistent
variable list (storage key `PERSISTENT_VARIABLES`), raw `LocalStorage`
items (used by the counter directives), the used-UUID ledger (storage key
`USED_UUIDS`; `none` models the key never having been set, so that
`Array.isArray` fails), a cursor into the random-UUID stream, and the log
of `addFileToSelection` calls. -/
structure PLState where
  persistentVars : List PersistentVariable
  localStorage : List (Str × Str)
  usedUUIDs : Option (List Str)
  uuidCounter : Nat
  selectionLog : List Str
deriving DecidableEq

/-- External collaborators: frontmost application (`none` models
`getFrontmostApplication` throwing), `runJSInActiveTab`, `execSync`
(bin, script), and the `crypto.randomUUID` stream. -/
structure Env where
  frontmostApp : Option Str
  runJS : Str → Str → Except Str Str
  execShell : Str → Str → Except Str Str
  uuidGen : Nat → Str

/-- The object returned by a directive's `apply`: the `result` field plus
the further named fields, in insertion order. -/
structure AppRes where
  result : Str
  extras : List (Str × Str)
deriving DecidableEq

/-- `Object.entries` of an apply result: `result` first, then the extras. -/
def AppRes.entries (r : AppRes) : List (Str × Str) :=
  (chars ("result"), r.result) :: r.extras

/-- The expansion context: a field-name/value object in insertion order. -/
abbrev Ctx := List (Str × Str)

/-- Is `k` a key of the context object (`k in obj`)? -/
def ctxHas (ctx : Ctx) (k : Str) : Bool := ctx.any (fun p => p.1 == k)

/-- Value of key `k` in the context, if present. -/
def ctxGet (ctx : Ctx) (k : Str) : Option Str :=
  (ctx.find? (fun p => p.1 == k)).map (fun p => p.2)

/-- JavaScript object assignment `obj[k] = v`: update in place if present,
append otherwise. -/
def ctxSet (ctx : Ctx) (k v : Str) : Ctx :=
  if ctxHas ctx k then ctx.map (fun p => if p.1 == k then (p.1, v) else p)
  else ctx ++ [(k, v)]

/-- `getPersistentVariable` (placeholders.ts:2939): current value of a
persistent variable, or the empty string if absent. -/
def getPersistentVariable (st : PLState) (name : Str) : Str :=
  match st.persistentVars.find? (fun v => v.name == name) with
  | some v => v.value
  | none => []

/-- `setPersistentVariable` (placeholders.ts:2953): create the record with
`initialValue = value` if absent; otherwise splice it out, update `value`
(keeping `initialValue`), and re-append at the tail. -/
def setPersistentVariable (st : PLState) (name value : Str) : PLState :=
  match st.persistentVars.find? (fun v => v.name == name) with
  | some v =>
    { st with persistentVars :=
        st.persistentVars.eraseP (fun w => w.name == name) ++
          [{ v with value := value }] }
  | none =>
    { st with persistentVars :=
        st.persistentVars ++ [{ name := name, value := value, initialValue := value }] }

/-- `resetPersistentVariable` (placeholders.ts:2970): if present, move the
record to the tail with `value := initialValue` and return that value;
otherwise leave the store untouched and return the empty string. -/
def resetPersistentVariable (st : PLState) (name : Str) : Str × PLState :=
  match st.persistentVars.find? (fun v => v.name == name) with
  | some v =>
    (v.initialValue,
      { st with persistentVars :=
          st.persistentVars.eraseP (fun w => w.name == name) ++
            [{ v with value := v.initialValue }] })
  | none => ([], st)

/-- `deletePersistentVariable` (placeholders.ts:2987): remove the record;
no-op if absent. -/
def deletePersistentVariable (st : PLState) (name : Str) : PLState :=
  match st.persistentVars.find? (fun v => v.name == name) with
  | some _ =>
    { st with persistentVars := st.persistentVars.eraseP (fun w => w.name == name) }
  | none => st

/-- `LocalStorage.getItem`. -/
def lsGet (st : PLState) (k : Str) : Option Str :=
  (st.localStorage.find? (fun p => p.1 == k)).map (fun p => p.2)

/-- `LocalStorage.setItem`. -/
def lsSet (st : PLState) (k v : Str) : PLState :=
  { st with localStorage :=
      if st.localStorage.any (fun p => p.1 == k) then
        st.localStorage.map (fun p => if p.1 == k then (p.1, v) else p)
      else st.localStorage ++ [(k, v)] }

/-- The usage-statistics update of `bulkApply` (placeholders.ts:2905-2908):
read `<name>_count` from the persistent variables, parse it (0 when the
stored string is empty), and store the incremented value. -/
def bumpCount (st : PLState) (nm : Str) : PLState :=
  let key := nm ++ chars ("_count")
  let cur := getPersistentVariable st key
  let value : Option Int := if cur.isEmpty then some 0 else parseIntJS cur
  setPersistentVariable st key (jsNumToStr (value.map (fun n => n + 1)))

/-- Modelled from the spec: the image-category extension set
(`data/file-extensions.ts` is not among the sources).  Per the spec's test
vector, `png` is an image extension and `txt` is not. -/
def imageFileExtensions : List Str :=
  [chars ("png"), chars ("jpg"), chars ("jpeg"), chars ("gif"), chars ("heic")]

/-- Modelled from the spec: the video-category extension set
(`data/file-extensions.ts` is not among the sources). -/
def videoFileExtensions : List Str :=
  [chars ("mp4"), chars ("mov"), chars ("avi")]

/-- Modelled from the spec: the audio-category extension set
(`data/file-extensions.ts` is not among the sources). -/
def audioFileExtensions : List Str :=
  [chars ("mp3"), chars ("wav"), chars ("aiff")]

/-- Modelled from the spec: `filterString` (`utils/context-utils.ts` is not
among the sources).  The spec says an external-process directive "returns
its output", so the filter is modelled as the identity. -/
def filterString (s : Str) : Str := s

/-- One alternative of the flow-control body grammar
`([^{]|{(?!{)|{{[\s\S]*?}})`. -/
def condToken : Regex :=
  .alt (.cc .notLBrace)
    (.alt (.cat (.cc (.single '\x7b')) (.nla (.cc (.single '\x7b'))))
      (litThen (chars ("\x7b\x7b")) (.cat (.starL (.cc .anyChar)) (rlit (chars ("\x7d\x7d"))))))

/-- A flow-control branch body `(([^{]|{(?!{)|{{[\s\S]*?}})*?)`, with its
outer and inner capture-group indices. -/
def condBody (outer inner : Nat) : Regex := .group outer (.starL (.group inner condToken))

/-- The flow-control pattern
`HEAD(([^{]|{(?!{)|{{[\s\S]*?}})*?)(:(([^{]|{(?!{)|{{[\s\S]*?}})*?))?}}`. -/
def condPat (head : Str) : Regex :=
  litThen head
    (.cat (condBody 1 2)
      (.cat (.optG (.group 3 (.cat (.cc (.single ':')) (condBody 4 5))))
        (rlit (chars ("\x7d\x7d")))))

/-- Pattern `{{images:...}}` (placeholders.ts:1768). -/
def imagesPat : Regex := condPat (chars ("\x7b\x7bimages:"))

/-- Pattern `{{mp4:...}}`, one per-extension video directive
(placeholders.ts:1801). -/
def mp4Pat : Regex := condPat (chars ("\x7b\x7bmp4:"))

/-- Pattern `{{mp3:...}}`, one per-extension audio directive
(placeholders.ts:1872). -/
def mp3Pat : Regex := condPat (chars ("\x7b\x7bmp3:"))

/-- Registry pattern `{{(pdf|PDF):...}}` (placeholders.ts:1945). -/
def pdfKeyPat : Regex :=
  litThen (chars ("\x7b\x7b"))
    (.cat (.group 1 (.alt (rlit (chars ("pdf"))) (rlit (chars ("PDF")))))
      (.cat (.cc (.single ':'))
        (.cat (condBody 2 3)
          (.cat (.optG (.group 4 (.cat (.cc (.single ':')) (condBody 5 6))))
            (rlit (chars ("\x7d\x7d")))))))

/-- Registry pattern `{{reset [a-zA-Z0-9_]+}}` (placeholders.ts:76). -/
def resetPat : Regex :=
  litThen (chars ("\x7b\x7breset ")) (.cat (plusG (.cc .alnumUnd)) (rlit (chars ("\x7d\x7d"))))

/-- Argument regex `{{reset ([a-zA-Z0-9_]+)}}` used by the reset apply. -/
def resetApplyPat : Regex :=
  litThen (chars ("\x7b\x7breset "))
    (.cat (.group 1 (plusG (.cc .alnumUnd))) (rlit (chars ("\x7d\x7d"))))

/-- Registry pattern `{{get [a-zA-Z0-9_]+}}` (placeholders.ts:99). -/
def getPat : Regex :=
  litThen (chars ("\x7b\x7bget ")) (.cat (plusG (.cc .alnumUnd)) (rlit (chars ("\x7d\x7d"))))

/-- Argument regex `{{get ([a-zA-Z0-9_]+)}}` used by the get apply. -/
def getApplyPat : Regex :=
  litThen (chars ("\x7b\x7bget "))
    (.cat (.group 1 (plusG (.cc .alnumUnd))) (rlit (chars ("\x7d\x7d"))))

/-- Registry pattern `{{set [a-zA-Z0-9_]+:[\s\S]*?}}` (placeholders.ts:2488). -/
def setPat : Regex :=
  litThen (chars ("\x7b\x7bset "))
    (.cat (plusG (.cc .alnumUnd))
      (.cat (.cc (.single ':')) (.cat (.starL (.cc .anyChar)) (rlit (chars ("\x7d\x7d"))))))

/-- Argument regex `{{set ([a-zA-Z0-9_]+):([\s\S]*?)}}` used by the set apply. -/
def setApplyPat : Regex :=
  litThen (chars ("\x7b\x7bset "))
    (.cat (.group 1 (plusG (.cc .alnumUnd)))
      (.cat (.cc (.single ':'))
        (.cat (.group 2 (.starL (.cc .anyChar))) (rlit (chars ("\x7d\x7d"))))))

/-- Registry pattern `{{uuid}}` (placeholders.ts:1237). -/
def uuidPat : Regex := rlit (chars ("\x7b\x7buuid\x7d\x7d"))

/-- Alias pattern `{{UUID}}` of the uuid directive. -/
def uuidAliasPat : Regex := rlit (chars ("\x7b\x7bUUID\x7d\x7d"))

/-- Registry pattern `{{currentAppName}}` (placeholders.ts:535). -/
def currentAppNamePat : Regex := rlit (chars ("\x7b\x7bcurrentAppName\x7d\x7d"))

/-- Registry pattern `{{selectedFiles}}` (placeholders.ts:271). -/
def selectedFilesPat : Regex := rlit (chars ("\x7b\x7bselectedFiles\x7d\x7d"))

/-- Registry pattern `{{increment:[\s\S]*?}}` (placeholders.ts:2041). -/
def incrementPat : Regex :=
  litThen (chars ("\x7b\x7bincrement:"))
    (.cat (.starL (.cc .anyChar)) (rlit (chars ("\x7d\x7d"))))

/-- Registry pattern `{{decrement:[\s\S]*?}}` (placeholders.ts:2061). -/
def decrementPat : Regex :=
  litThen (chars ("\x7b\x7bdecrement:"))
    (.cat (.starL (.cc .anyChar)) (rlit (chars ("\x7d\x7d"))))

/-- Registry pattern `{{selectFile:[\s\S]*?}}` (placeholders.ts:2253). -/
def selectFilePat : Regex :=
  litThen (chars ("\x7b\x7bselectFile:"))
    (.cat (.starL (.cc .anyChar)) (rlit (chars ("\x7d\x7d"))))

/-- Registry pattern `{{shell( .*)?:(.|[ \n\r\s])*?}}` (placeholders.ts:2460). -/
def shellPat : Regex :=
  litThen (chars ("\x7b\x7bshell"))
    (.cat (.optG (.group 1 (.cat (.cc (.single ' ')) (.starG (.cc .dot)))))
      (.cat (.cc (.single ':'))
        (.cat (.starL (.group 2 (.alt (.cc .dot) (.cc .spaceNl))))
          (rlit (chars ("\x7d\x7d"))))))

/-- Registry pattern `{{focusedElement( browser="(.*?)")?}}`
(placeholders.ts:2081). -/
def focusedElementPat : Regex :=
  litThen (chars ("\x7b\x7bfocusedElement"))
    (.cat (.optG (.group 1 (litThen (chars (" browser=\""))
        (.cat (.group 2 (.starL (.cc .dot))) (rlit (chars ("\"")))))))
      (rlit (chars ("\x7d\x7d"))))

/-- An alias pattern of the focusedElement directive, e.g.
`{{activeElement( browser="(.*?)")?}}`. -/
def elementAliasPat (nm : Str) : Regex :=
  litThen (chars ("\x7b\x7b") ++ nm)
    (.cat (.optG (.group 1 (litThen (chars (" browser=\""))
        (.cat (.group 2 (.starL (.cc .dot))) (rlit (chars ("\"")))))))
      (rlit (chars ("\x7d\x7d"))))

/-- The browser-argument regex
`(focusedElement|activeElement|selectedElement)( browser=")(.*?)(")?` used
inside the focusedElement apply (placeholders.ts:2092). -/
def browserArgPat : Regex :=
  .cat (.group 1 (.alt (rlit (chars ("focusedElement")))
      (.alt (rlit (chars ("activeElement"))) (rlit (chars ("selectedElement"))))))
    (.cat (.group 2 (rlit (chars (" browser=\""))))
      (.cat (.group 3 (.starL (.cc .dot))) (.optG (.group 4 (rlit (chars ("\"")))))))

/-- Embeds the argument extraction `(?<=(T))[\s\S]*?(?=}})` used by the
increment, decrement and selectFile applies: the text after the first
occurrence of `T`, lazily up to the next `}}`; `none` when `T` does not
occur or no `}}` follows. -/
def lookbehindArg (tok s : Str) : Option Str :=
  (afterTok tok s).bind (upToTok (chars ("\x7d\x7d")))

/-- A character matched by `.` (not a line terminator). -/
def lineChar (c : Char) : Bool := c != '\n' && c != '\r'

/-- The lookahead `(?=:(.|[ \n\r\s])*?}})` of the shell-bin extraction:
the text starts with `:` and a `}}` occurs afterwards. -/
def binLA (t : Str) : Bool :=
  match t with
  | ':' :: r => occursStr (chars ("\x7d\x7d")) r
  | _ => false

/-- At one candidate position, the `( .*)?` part of the shell-bin regex
with its lookahead: greedy (longest dot-run first), empty alternative
last.  Returns the matched text (`[0]`). -/
def binMatchHere (s : Str) : Option Str :=
  match s with
  | ' ' :: rest =>
    let run := rest.takeWhile lineChar
    match (List.range (run.length + 1)).reverse.findSome?
        (fun k => if binLA (rest.drop k) then some (' ' :: run.take k) else none) with
    | some v => some v
    | none => if binLA s then some [] else none
  | _ => if binLA s then some [] else none

/-- Left-to-right scan for `(?<=shell)( .*)?(?=:(.|[ \n\r\s])*?}})`
(placeholders.ts:2465): `pre` is the consumed prefix, checked for the
`shell` lookbehind at each position. -/
def shellBinScan : Str → Str → Option Str
  | pre, s =>
    match (if endsWithStr pre (chars ("shell")) then binMatchHere s else none) with
    | some v => some v
    | none =>
      match s with
      | [] => none
      | c :: rest => shellBinScan (pre ++ [c]) rest

/-- The `( .*)?` text selected by the shell-bin extraction regex on the
full template, if any position matches. -/
def shellBinArg (s : Str) : Option Str := shellBinScan [] s

/-- Does a segment that directly follows `shell` complete the lookbehind
`shell( .*)?:`?  Either `:` alone, or a space, a run of `.`-characters and
a final `:`. -/
def segTailOptColon (seg : Str) : Bool :=
  match seg with
  | [':'] => true
  | ' ' :: r =>
    (match r.reverse with
     | ':' :: rr => rr.all lineChar
     | _ => false)
  | _ => false

/-- Is `seg` exactly a string matched by `shell( .*)?:`? -/
def segIsShellOptColon (seg : Str) : Bool :=
  startsWithStr seg (chars ("shell")) && segTailOptColon (seg.drop 5)

/-- The variable-length lookbehind `(?<=shell( .*)?:)`: some suffix of the
consumed prefix is exactly `shell( .*)?:`. -/
def scriptLBHolds (pre : Str) : Bool :=
  (List.range (pre.length + 1)).any (fun j => segIsShellOptColon (pre.drop j))

/-- Left-to-right scan for `(?<=shell( .*)?:)(.|[ \n\r\s])*?(?=}})`
(placeholders.ts:2467): at the first position whose prefix satisfies the
lookbehind and which is followed by a `}}`, return the lazy middle. -/
def shellScriptScan : Str → Str → Option Str
  | pre, s =>
    match (if scriptLBHolds pre then upToTok (chars ("\x7d\x7d")) s else none) with
    | some v => some v
    | none =>
      match s with
      | [] => none
      | c :: rest => shellScriptScan (pre ++ [c]) rest

/-- The script text selected by the shell-script extraction regex on the
full template, if any position matches. -/
def shellScriptArg (s : Str) : Option Str := shellScriptScan [] s

/-- A directive descriptor (the `Placeholder` interface of
`utils/types.ts`): canonical name, compiled alias patterns, declared
result keys, dependency names, the constant flag, and the effectful
`apply`.  `apply` receives the loop fuel (forwarded by the engine; `none`
models a non-terminating evaluation), the full remaining template, the
current context, the collaborators, the settings and the state.  The inert
UI metadata (`fn`, `example`, `description`, `hintRepresentation`) is
omitted: the engine never reads it. -/
structure Placeholder where
  name : Str
  aliases : List Regex := []
  result_keys : Option (List Str) := none
  dependencies : List Str := []
  constant : Bool
  apply : Nat → Str → Ctx → Env → Settings → PLState → Option (AppRes × PLState)

/-- Apply of `{{reset ...}}` (placeholders.ts:78-86): reset the variable to
its initial value, then call `setPersistentVariable` with that value; the
result is always the empty string. -/
def resetApply (_fuel : Nat) (s : Str) (_ctx : Ctx) (_env : Env) (_setts : Settings)
    (st : PLState) : Option (AppRes × PLState) :=
  match findFirst resetApplyPat s with
  | some (_, _, cps) =>
    let key := (capGet cps 1).getD []
    let (initialValue, st1) := resetPersistentVariable st key
    some (⟨[], []⟩, setPersistentVariable st1 key initialValue)
  | none => some (⟨[], []⟩, st)

/-- Apply of `{{get ...}}` (placeholders.ts:101-108): look the variable up;
empty string when absent. -/
def getApply (_fuel : Nat) (s : Str) (_ctx : Ctx) (_env : Env) (_setts : Settings)
    (st : PLState) : Option (AppRes × PLState) :=
  match findFirst getApplyPat s with
  | some (_, _, cps) =>
    let key := (capGet cps 1).getD []
    some (⟨getPersistentVariable st key, []⟩, st)
  | none => some (⟨[], []⟩, st)

/-- Apply of `{{set x:...}}` (placeholders.ts:2490-2498): store the value;
the result is always the empty string. -/
def setApply (_fuel : Nat) (s : Str) (_ctx : Ctx) (_env : Env) (_setts : Settings)
    (st : PLState) : Option (AppRes × PLState) :=
  match findFirst setApplyPat s with
  | some (_, _, cps) =>
    let key := (capGet cps 1).getD []
    let value := (capGet cps 2).getD []
    some (⟨[], []⟩, setPersistentVariable st key value)
  | none => some (⟨[], []⟩, st)

/-- Apply of `{{selectedFiles}}` (placeholders.ts:274-283): requires the
`selectedFiles` context field (`"selectedFiles" in context`); degrades to
the empty string otherwise.  The `ScriptRunner.SelectedFiles` fallback of
the ternary is unreachable because the `in`-check has already succeeded. -/
def selectedFilesApply (_fuel : Nat) (_s : Str) (ctx : Ctx) (_env : Env)
    (_setts : Settings) (st : PLState) : Option (AppRes × PLState) :=
  if !ctxHas ctx (chars ("selectedFiles")) then
    some (⟨[], [(chars ("selectedFiles"), [])]⟩, st)
  else
    let files := (ctxGet ctx (chars ("selectedFiles"))).getD []
    some (⟨files, [(chars ("selectedFiles"), files)]⟩, st)

/-- Apply of `{{currentAppName}}` (placeholders.ts:538-545): the frontmost
application's name, or the empty string when the collaborator throws. -/
def currentAppNameApply (_fuel : Nat) (_s : Str) (_ctx : Ctx) (env : Env)
    (_setts : Settings) (st : PLState) : Option (AppRes × PLState) :=
  match env.frontmostApp with
  | some app => some (⟨app, [(chars ("currentAppName"), app)]⟩, st)
  | none => some (⟨[], [(chars ("currentAppName"), [])]⟩, st)

/-- The `while (usedUUIDs.includes(newUUID))` retry loop of the uuid apply
(placeholders.ts:1244-1246), fuel-bounded: draw successive values from the
random stream until one is outside the ledger; `none` models the loop
never finding a fresh value. -/
def pickFreshUUID (env : Env) (used : List Str) : Nat → Nat → Option (Str × Nat)
  | 0, _ => none
  | fuel + 1, ctr =>
    let u := env.uuidGen ctr
    if used.contains u then pickFreshUUID env used fuel (ctr + 1) else some (u, ctr + 1)

/-- Apply of `{{uuid}}` (placeholders.ts:1240-1253): generate a UUID; if
the ledger is an array, retry until fresh, append it and store; otherwise
initialise the ledger with the fresh value. -/
def uuidApply (fuel : Nat) (_s : Str) (_ctx : Ctx) (env : Env) (_setts : Settings)
    (st : PLState) : Option (AppRes × PLState) :=
  match st.usedUUIDs with
  | some used =>
    (pickFreshUUID env used (fuel + 1) st.uuidCounter).map (fun p =>
      (⟨p.1, [(chars ("uuid"), p.1)]⟩,
        { st with usedUUIDs := some (used ++ [p.1]), uuidCounter := p.2 }))
  | none =>
    let u := env.uuidGen st.uuidCounter
    some (⟨u, [(chars ("uuid"), u)]⟩,
      { st with usedUUIDs := some [u], uuidCounter := st.uuidCounter + 1 })

/-- Does any selected file path have an extension (case-insensitively) in
the given set?  (`files.some(file => exts.some(ext =>
file.toLowerCase().endsWith(ext)))`). -/
def anyFileWithExt (exts : List Str) (files : List Str) : Bool :=
  files.any (fun f => exts.any (fun e => endsWithStr (lowerStr f) e))

/-- Apply of `{{images:...}}` (placeholders.ts:1770-1785): branch on
whether any selected file has an image extension; both the `result` and
the `contentForImages` field carry the chosen branch body. -/
def imagesApply (_fuel : Nat) (s : Str) (ctx : Ctx) (_env : Env) (_setts : Settings)
    (st : PLState) : Option (AppRes × PLState) :=
  match ctxGet ctx (chars ("selectedFiles")) with
  | none => some (⟨[], [(chars ("contentForImages"), [])]⟩, st)
  | some sf =>
    if sf.isEmpty then some (⟨[], [(chars ("contentForImages"), [])]⟩, st)
    else
      let onSuccess :=
        match findFirst imagesPat s with
        | some (_, _, cps) => (capGet cps 1).getD []
        | none => []
      let onFailure :=
        match findFirst imagesPat s with
        | some (_, _, cps) => (capGet cps 4).getD []
        | none => []
      let files := splitOnChar ',' sf
      if anyFileWithExt imageFileExtensions files then
        some (⟨onSuccess, [(chars ("contentForImages"), onSuccess)]⟩, st)
      else
        some (⟨onFailure, [(chars ("contentForImages"), onFailure)]⟩, st)

/-- Apply of the per-extension video directive `{{mp4:...}}`
(placeholders.ts:1803-1820).  Note: the early-return branches name their
field `video:mp4`, but the main branches name it `image:mp4` — exactly as
in the source. -/
def videoMp4Apply (_fuel : Nat) (s : Str) (ctx : Ctx) (_env : Env) (_setts : Settings)
    (st : PLState) : Option (AppRes × PLState) :=
  match ctxGet ctx (chars ("selectedFiles")) with
  | none => some (⟨[], [(chars ("video:mp4"), [])]⟩, st)
  | some sf =>
    if sf.isEmpty then some (⟨[], [(chars ("video:mp4"), [])]⟩, st)
    else
      let onSuccess :=
        match findFirst mp4Pat s with
        | some (_, _, cps) => (capGet cps 1).getD []
        | none => []
      let onFailure :=
        match findFirst mp4Pat s with
        | some (_, _, cps) => (capGet cps 4).getD []
        | none => []
      let files := splitOnChar ',' sf
      if files.any (fun f => endsWithStr (lowerStr f) (chars ("mp4"))) then
        some (⟨onSuccess, [(chars ("image:mp4"), onSuccess)]⟩, st)
      else
        some (⟨onFailure, [(chars ("image:mp4"), onFailure)]⟩, st)

/-- Apply of the per-extension audio directive `{{mp3:...}}`
(placeholders.ts:1874-1891).  As in the source, the early-return branches
name their field `audio:mp3` while the main branches name it `image:mp3`. -/
def audioMp3Apply (_fuel : Nat) (s : Str) (ctx : Ctx) (_env : Env) (_setts : Settings)
    (st : PLState) : Option (AppRes × PLState) :=
  match ctxGet ctx (chars ("selectedFiles")) with
  | none => some (⟨[], [(chars ("audio:mp3"), [])]⟩, st)
  | some sf =>
    if sf.isEmpty then some (⟨[], [(chars ("audio:mp3"), [])]⟩, st)
    else
      let onSuccess :=
        match findFirst mp3Pat s with
        | some (_, _, cps) => (capGet cps 1).getD []
        | none => []
      let onFailure :=
        match findFirst mp3Pat s with
        | some (_, _, cps) => (capGet cps 4).getD []
        | none => []
      let files := splitOnChar ',' sf
      if files.any (fun f => endsWithStr (lowerStr f) (chars ("mp3"))) then
        some (⟨onSuccess, [(chars ("image:mp3"), onSuccess)]⟩, st)
      else
        some (⟨onFailure, [(chars ("image:mp3"), onFailure)]⟩, st)

/-- Apply of `{{(pdf|PDF):...}}` (placeholders.ts:1947-1962).  As in the
source, every branch names its field `image:pdf`, never the declared
result key `contentForPDFs`, and the argument extraction matches only the
lowercase `{{pdf:...}}` form. -/
def pdfApply (_fuel : Nat) (s : Str) (ctx : Ctx) (_env : Env) (_setts : Settings)
    (st : PLState) : Option (AppRes × PLState) :=
  match ctxGet ctx (chars ("selectedFiles")) with
  | none => some (⟨[], [(chars ("image:pdf"), [])]⟩, st)
  | some sf =>
    if sf.isEmpty then some (⟨[], [(chars ("image:pdf"), [])]⟩, st)
    else
      let onSuccess :=
        match findFirst (condPat (chars ("\x7b\x7bpdf:"))) s with
        | some (_, _, cps) => (capGet cps 1).getD []
        | none => []
      let onFailure :=
        match findFirst (condPat (chars ("\x7b\x7bpdf:"))) s with
        | some (_, _, cps) => (capGet cps 4).getD []
        | none => []
      let files := splitOnChar ',' sf
      if files.any (fun f => endsWithStr (lowerStr f) (chars ("pdf"))) then
        some (⟨onSuccess, [(chars ("image:pdf"), onSuccess)]⟩, st)
      else
        some (⟨onFailure, [(chars ("image:pdf"), onFailure)]⟩, st)

/-- Apply of `{{increment:...}}` (placeholders.ts:2043-2048): parse the
stored counter (`|| "0"` when unset or empty), add one, store and return. -/
def incrementApply (_fuel : Nat) (s : Str) (_ctx : Ctx) (_env : Env) (_setts : Settings)
    (st : PLState) : Option (AppRes × PLState) :=
  let nm :=
    match lookbehindArg (chars ("increment:")) s with
    | some v => v
    | none => chars ("undefined")
  let identifier := chars ("id-") ++ nm
  let stored := jsOrStr (lsGet st identifier) (chars ("0"))
  let valueStr := jsNumToStr ((parseIntJS stored).map (fun n => n + 1))
  some (⟨valueStr, []⟩, lsSet st identifier valueStr)

/-- Apply of `{{decrement:...}}` (placeholders.ts:2063-2068): the source
computes `parseInt(stored) + 1`, identically to increment — the stored
value and the result go up by one. -/
def decrementApply (_fuel : Nat) (s : Str) (_ctx : Ctx) (_env : Env) (_setts : Settings)
    (st : PLState) : Option (AppRes × PLState) :=
  let nm :=
    match lookbehindArg (chars ("decrement:")) s with
    | some v => v
    | none => chars ("undefined")
  let identifier := chars ("id-") ++ nm
  let stored := jsOrStr (lsGet st identifier) (chars ("0"))
  let valueStr := jsNumToStr ((parseIntJS stored).map (fun n => n + 1))
  some (⟨valueStr, []⟩, lsSet st identifier valueStr)

/-- Apply of `{{focusedElement...}}` (placeholders.ts:2090-2104): pick the
browser argument if present (and truthy), else the `currentAppName`
context field if truthy, else the frontmost application; run the
`document.activeElement.innerText` script there.  Any failure resolves to
the empty string. -/
def focusedElementApply (_fuel : Nat) (s : Str) (ctx : Ctx) (env : Env)
    (_setts : Settings) (st : PLState) : Option (AppRes × PLState) :=
  let browser :=
    match findFirst browserArgPat s with
    | some (_, _, cps) => capGet cps 3
    | none => none
  let appName :=
    match jsTruthy browser with
    | some b => some b
    | none =>
      match jsTruthy (ctxGet ctx (chars ("currentAppName"))) with
      | some a => some a
      | none => env.frontmostApp
  match appName with
  | none => some (⟨[], []⟩, st)
  | some app =>
    match env.runJS (chars ("document.activeElement.innerText")) app with
    | .ok t => some (⟨t, []⟩, st)
    | .error _ => some (⟨[], []⟩, st)

/-- Apply of `{{selectFile:...}}` (placeholders.ts:2255-2260): the argument
match looks for `selectFiles:` (with the extra `s`); when it produces a
truthy value, `addFileToSelection` is invoked with it; the result is
always the empty string. -/
def selectFileApply (_fuel : Nat) (s : Str) (_ctx : Ctx) (_env : Env) (_setts : Settings)
    (st : PLState) : Option (AppRes × PLState) :=
  match lookbehindArg (chars ("selectFiles:")) s with
  | none => some (⟨[], []⟩, st)
  | some f =>
    if f.isEmpty then some (⟨[], []⟩, st)
    else some (⟨[], []⟩, { st with selectionLog := st.selectionLog ++ [f] })

/-- Apply of `{{shell...}}` (placeholders.ts:2462-2473): extract the bin
(defaulting to `/bin/zsh`), optionally prepend the PATH-export prelude,
extract the script (a null match concatenates as the string `undefined`),
run it, and resolve to the empty string on failure or on an empty script. -/
def shellApply (_fuel : Nat) (s : Str) (_ctx : Ctx) (env : Env) (setts : Settings)
    (st : PLState) : Option (AppRes × PLState) :=
  let bin := jsOrStr ((shellBinArg s).map trimStr) (chars ("/bin/zsh"))
  let pathScript :=
    if setts.useUserShellEnvironment then
      chars ("export PATH=$(") ++ bin ++ chars (" -ilc \"echo -n \\$PATH\") &&")
    else []
  let script :=
    match shellScriptArg s with
    | some v => pathScript ++ v
    | none => pathScript ++ chars ("undefined")
  if script.isEmpty then some (⟨[], [(chars ("shell"), [])]⟩, st)
  else
    match env.execShell bin script with
    | .ok out =>
      let res := filterString out
      some (⟨res, [(chars ("shell"), res)]⟩, st)
    | .error _ => some (⟨[], [(chars ("shell"), [])]⟩, st)

/-- The `reset` directive descriptor (placeholders.ts:76-94). -/
def resetPH : Placeholder :=
  { name := chars ("reset"), constant := false, apply := resetApply }

/-- The `get` directive descriptor (placeholders.ts:99-116). -/
def getPH : Placeholder :=
  { name := chars ("get"), constant := false, apply := getApply }

/-- The `selectedFiles` directive descriptor (placeholders.ts:271-291). -/
def selectedFilesPH : Placeholder :=
  { name := chars ("selectedFiles")
    aliases := [rlit (chars ("\x7b\x7bselectedFile\x7d\x7d")), rlit (chars ("\x7b\x7bfiles\x7d\x7d"))]
    result_keys := some [chars ("selectedFiles")]
    constant := true
    apply := selectedFilesApply }

/-- The `currentAppName` directive descriptor (placeholders.ts:535-552). -/
def currentAppNamePH : Placeholder :=
  { name := chars ("currentAppName")
    aliases := [rlit (chars ("\x7b\x7bcurrentApp\x7d\x7d")),
      rlit (chars ("\x7b\x7bcurrentApplication\x7d\x7d")),
      rlit (chars ("\x7b\x7bcurrentApplicationName\x7d\x7d"))]
    result_keys := some [chars ("currentAppName")]
    constant := true
    apply := currentAppNameApply }

/-- The `uuid` directive descriptor (placeholders.ts:1237-1259). -/
def uuidPH : Placeholder :=
  { name := chars ("uuid"), aliases := [uuidAliasPat], constant := false
    apply := uuidApply }

/-- The `contentForImages` directive descriptor (placeholders.ts:1768-1798). -/
def imagesPH : Placeholder :=
  { name := chars ("contentForImages")
    result_keys := some [chars ("contentForImages")]
    constant := true
    apply := imagesApply }

/-- The per-extension `video:mp4` directive descriptor
(placeholders.ts:1800-1834). -/
def videoMp4PH : Placeholder :=
  { name := chars ("video:mp4")
    result_keys := some [chars ("video:mp4")]
    constant := true
    apply := videoMp4Apply }

/-- The per-extension `audio:mp3` directive descriptor
(placeholders.ts:1871-1905). -/
def audioMp3PH : Placeholder :=
  { name := chars ("audio:mp3")
    result_keys := some [chars ("audio:mp3")]
    constant := true
    apply := audioMp3Apply }

/-- The `contentForPDFs` directive descriptor (placeholders.ts:1945-1975). -/
def pdfPH : Placeholder :=
  { name := chars ("contentForPDFs")
    result_keys := some [chars ("contentForPDFs")]
    constant := true
    apply := pdfApply }

/-- The `increment` directive descriptor (placeholders.ts:2041-2056). -/
def incrementPH : Placeholder :=
  { name := chars ("increment"), constant := false, apply := incrementApply }

/-- The `decrement` directive descriptor (placeholders.ts:2061-2076). -/
def decrementPH : Placeholder :=
  { name := chars ("decrement"), constant := false, apply := decrementApply }

/-- The `focusedElement` directive descriptor (placeholders.ts:2081-2121). -/
def focusedElementPH : Placeholder :=
  { name := chars ("focusedElement")
    aliases := [elementAliasPat (chars ("activeElement")),
      elementAliasPat (chars ("selectedElement")),
      elementAliasPat (chars ("focusedElementText")),
      elementAliasPat (chars ("activeElementText")),
      elementAliasPat (chars ("selectedElementText"))]
    dependencies := [chars ("currentAppName")]
    constant := false
    apply := focusedElementApply }

/-- The `selectFile` directive descriptor (placeholders.ts:2253-2267). -/
def selectFilePH : Placeholder :=
  { name := chars ("selectFile"), constant := false, apply := selectFileApply }

/-- The `shell` directive descriptor (placeholders.ts:2460-2483). -/
def shellPH : Placeholder :=
  { name := chars ("shell"), constant := false, apply := shellApply }

/-- The `setPersistentVariable` directive descriptor
(placeholders.ts:2488-2509). -/
def setPH : Placeholder :=
  { name := chars ("setPersistentVariable"), constant := false, apply := setApply }

/-- A registry key: the pattern's source string (the object key the
TypeScript table is indexed by) together with its compiled regex. -/
abbrev KeyT := Str × Regex

/-- The built-in registry `placeholders` (placeholders.ts:72-2630),
restricted to the directives the properties below depend on, in source
order.  Omitted entries are informational directives whose patterns do not
occur in any template studied here, so the engine skips them. -/
def placeholders : List (KeyT × Placeholder) :=
  [((chars ("\x7b\x7breset [a-zA-Z0-9_]+\x7d\x7d"), resetPat), resetPH),
   ((chars ("\x7b\x7bget [a-zA-Z0-9_]+\x7d\x7d"), getPat), getPH),
   ((chars ("\x7b\x7bselectedFiles\x7d\x7d"), selectedFilesPat), selectedFilesPH),
   ((chars ("\x7b\x7bcurrentAppName\x7d\x7d"), currentAppNamePat), currentAppNamePH),
   ((chars ("\x7b\x7buuid\x7d\x7d"), uuidPat), uuidPH),
   ((chars ("\x7b\x7bimages:(([^\x7b]|\x7b(?!\x7b)|\x7b\x7b[\\s\\S]*?\x7d\x7d)*?)(:(([^\x7b]|\x7b(?!\x7b)|\x7b\x7b[\\s\\S]*?\x7d\x7d)*?))?\x7d\x7d"), imagesPat), imagesPH),
   ((chars ("\x7b\x7bmp4:(([^\x7b]|\x7b(?!\x7b)|\x7b\x7b[\\s\\S]*?\x7d\x7d)*?)(:(([^\x7b]|\x7b(?!\x7b)|\x7b\x7b[\\s\\S]*?\x7d\x7d)*?))?\x7d\x7d"), mp4Pat), videoMp4PH),
   ((chars ("\x7b\x7bmp3:(([^\x7b]|\x7b(?!\x7b)|\x7b\x7b[\\s\\S]*?\x7d\x7d)*?)(:(([^\x7b]|\x7b(?!\x7b)|\x7b\x7b[\\s\\S]*?\x7d\x7d)*?))?\x7d\x7d"), mp3Pat), audioMp3PH),
   ((chars ("\x7b\x7b(pdf|PDF):(([^\x7b]|\x7b(?!\x7b)|\x7b\x7b[\\s\\S]*?\x7d\x7d)*?)(:(([^\x7b]|\x7b(?!\x7b)|\x7b\x7b[\\s\\S]*?\x7d\x7d)*?))?\x7d\x7d"), pdfKeyPat), pdfPH),
   ((chars ("\x7b\x7bincrement:[\\s\\S]*?\x7d\x7d"), incrementPat), incrementPH),
   ((chars ("\x7b\x7bdecrement:[\\s\\S]*?\x7d\x7d"), decrementPat), decrementPH),
   ((chars ("\x7b\x7bfocusedElement( browser=\"(.*?)\")?\x7d\x7d"), focusedElementPat), focusedElementPH),
   ((chars ("\x7b\x7bselectFile:[\\s\\S]*?\x7d\x7d"), selectFilePat), selectFilePH),
   ((chars ("\x7b\x7bshell( .*)?:(.|[ \\n\\r\\s])*?\x7d\x7d"), shellPat), shellPH),
   ((chars ("\x7b\x7bset [a-zA-Z0-9_]+:[\\s\\S]*?\x7d\x7d"), setPat), setPH)]

/-- The placeholder built for one custom-placeholder JSON entry
(placeholders.ts:2757-2776): constant, with the entry's name as its sole
result key; its apply substitutes `$0`, `$1`, … back-references (with
backslashes doubled) into the literal value template. -/
def customPlaceholder (keyRe : Regex) (nGroups : Nat) (nm value : Str) : Placeholder :=
  { name := nm
    result_keys := some [nm]
    constant := true
    apply := fun _fuel s _ctx _env _setts st =>
      let value' :=
        match findFirst keyRe s with
        | none => value
        | some (i, len, cps) =>
          (List.range (nGroups + 1)).foldl
            (fun acc idx =>
              let m := if idx == 0 then sliceAt s i len else (capGet cps idx).getD []
              strReplaceAll (chars ("$") ++ (toString idx).data)
                (strReplaceAll (chars ("\\")) (chars ("\\\\")) m) acc)
            value
      some (⟨value', [(nm, value')]⟩, st) }

/-- JavaScript object-spread assignment of one entry: an existing key
keeps its position but takes the new value; a new key is appended. -/
def jsAssign (acc : List (KeyT × Placeholder)) (kv : KeyT × Placeholder) :
    List (KeyT × Placeholder) :=
  if acc.any (fun p => p.1.1 == kv.1.1) then
    acc.map (fun p => if p.1.1 == kv.1.1 then (p.1, kv.2) else p)
  else acc ++ [kv]

/-- The merge `{ ...customPlaceholders, ...placeholders }`
(placeholders.ts:2851): keys keep the first spread's insertion order, but
on a duplicated key the value of the second spread — the built-in — wins. -/
def jsSpread (l1 l2 : List (KeyT × Placeholder)) : List (KeyT × Placeholder) :=
  (l1 ++ l2).foldl jsAssign []

/-- The merge of an apply result into the context
(placeholders.ts:2917-2922): each returned entry (including `result`) is
assigned into the context, and any matching key still pending in the
entry's `result_keys` list is spliced out. -/
def mergeEntries : Ctx → Option (List Str) → List (Str × Str) → Ctx × Option (List Str)
  | ctx, rkeys, [] => (ctx, rkeys)
  | ctx, rkeys, (k, v) :: rest =>
    mergeEntries (ctxSet ctx k v)
      (rkeys.map (fun l => if l.contains k then l.erase k else l)) rest

/-- The inner `while (subbedStr.match(...) != undefined)` loop of
`bulkApply` (placeholders.ts:2900-2928) for one pattern of the check set:
evaluate, bump the usage statistic, then replace all occurrences (constant
directives, which also break out of the loop) or only the first occurrence
(non-constant directives, which loop for the next occurrence).  The loop is
fuel-indexed; `none` models divergence. -/
def applyLoop (ph : Placeholder) (re : Regex) (env : Env) (setts : Settings) :
    Nat → Str → Ctx → Option (List Str) → PLState →
    Option (Str × Ctx × Option (List Str) × PLState)
  | fuel, subbed, ctx, rkeys, st =>
    if rMatches re subbed then
      match fuel with
      | 0 => none
      | fuel' + 1 =>
        match ph.apply fuel' subbed ctx env setts st with
        | none => none
        | some (res, st1) =>
          let st2 := if setts.usePlaceholderStatistics then bumpCount st1 ph.name else st1
          let subbed' :=
            if ph.constant then replaceAllRec re res.result subbed
            else replaceFirst re res.result subbed
          let merged := mergeEntries ctx rkeys res.entries
          if ph.constant then some (subbed', merged.1, merged.2, st2)
          else applyLoop ph re env setts fuel' subbed' merged.1 merged.2 st2
    else some (subbed, ctx, rkeys, st)

/-- The `for (const newKey of keysToCheck)` loop of `bulkApply`
(placeholders.ts:2900): run the while-loop for each pattern in order,
threading the template, context, pending result keys and state. -/
def loopKeys (ph : Placeholder) (env : Env) (setts : Settings) (fuel : Nat) :
    List Regex → Str → Ctx → Option (List Str) → PLState →
    Option (Str × Ctx × Option (List Str) × PLState)
  | [], subbed, ctx, rkeys, st => some (subbed, ctx, rkeys, st)
  | re :: rest, subbed, ctx, rkeys, st =>
    match applyLoop ph re env setts fuel subbed ctx rkeys st with
    | none => none
    | some (s', c', rk', st') => loopKeys ph env setts fuel rest s' c' rk' st'

/-- Processing of one registry entry in `bulkApply`'s main loop
(placeholders.ts:2873-2929): collect the matching alias patterns followed
by the matching key pattern; skip if none match; skip if the entry
declares result keys and they are all already resolved in the context;
append the dependency entries' key patterns; then run the per-pattern
loops.  Dependency lookup searches the full merged registry by name. -/
def processEntry (reg : List (KeyT × Placeholder)) (env : Env) (setts : Settings)
    (fuel : Nat) (kv : KeyT × Placeholder) (subbed : Str) (ctx : Ctx) (st : PLState) :
    Option (Str × Ctx × PLState) :=
  let ph := kv.2
  let aliasKeys := ph.aliases.filter (fun a => rMatches a subbed)
  let keysToCheck :=
    if rMatches kv.1.2 subbed then aliasKeys ++ [kv.1.2] else aliasKeys
  if keysToCheck.isEmpty then some (subbed, ctx, st)
  else
    let rkeys := ph.result_keys.map (fun l => l.filter (fun k =>
      !ctxHas ctx k || (((ctxGet ctx k).getD []).isEmpty && k == chars ("input"))))
    match rkeys with
    | some [] => some (subbed, ctx, st)
    | _ =>
      let deps := ph.dependencies.foldl (fun acc dn =>
        match reg.find? (fun p => p.2.name == dn) with
        | some dep => acc ++ [dep.1.2]
        | none => acc) []
      match loopKeys ph env setts fuel (keysToCheck ++ deps) subbed ctx rkeys st with
      | none => none
      | some (s', c', _, st') => some (s', c', st')

/-- The `for (const [key, placeholder] of allPlaceholders)` loop of
`bulkApply` (placeholders.ts:2873). -/
def processEntries (reg : List (KeyT × Placeholder)) (env : Env) (setts : Settings)
    (fuel : Nat) :
    List (KeyT × Placeholder) → Str → Ctx → PLState → Option (Str × Ctx × PLState)
  | [], subbed, ctx, st => some (subbed, ctx, st)
  | kv :: rest, subbed, ctx, st =>
    match processEntry reg env setts fuel kv subbed ctx st with
    | none => none
    | some (s', c', st') => processEntries reg env setts fuel rest s' c' st'

/-- The seed-substitution pass of `bulkApply` (placeholders.ts:2857-2871):
for each context field (in insertion order) whose name matches a registry
entry, unless it is an empty `input` seed, replace every occurrence of
that entry's key pattern with the seeded value directly, bumping the usage
statistic when enabled. -/
def seedPass (reg : List (KeyT × Placeholder)) (setts : Settings) :
    List (Str × Str) → Str → PLState → Str × PLState
  | [], subbed, st => (subbed, st)
  | (ck, cv) :: rest, subbed, st =>
    match reg.find? (fun p => p.2.name == ck) with
    | some keyHolder =>
      if !(ck == chars ("input") && cv.isEmpty) then
        if rMatches keyHolder.1.2 subbed then
          seedPass reg setts rest (replaceAllRec keyHolder.1.2 cv subbed)
            (if setts.usePlaceholderStatistics then bumpCount st ck else st)
        else seedPass reg setts rest subbed st
      else seedPass reg setts rest subbed st
    | none => seedPass reg setts rest subbed st

/-- `bulkApply` (placeholders.ts:2844-2932) over an already-merged
registry: identity when placeholder processing is disabled; otherwise the
seed pass followed by the main resolution loop.  Besides the substituted
string — the only value the TypeScript function returns — the model also
exposes the final context object and state for specification purposes.
The fuel bounds each inner while-loop; `none` models divergence. -/
def bulkApply (fuel : Nat) (reg : List (KeyT × Placeholder)) (env : Env)
    (setts : Settings) (s0 : Str) (ctx0 : Ctx) (st0 : PLState) :
    Option (Str × Ctx × PLState) :=
  if !setts.processPlaceholders then some (s0, ctx0, st0)
  else
    let seeded := seedPass reg setts ctx0 s0 st0
    processEntries reg env setts fuel reg seeded.1 ctx0 seeded.2

/-- Settings for the scenarios below: placeholder processing enabled,
custom placeholders allowed, user-shell-environment and usage statistics
disabled. -/
def stdSettings : Settings :=
  { processPlaceholders := true, allowCustomPlaceholders := true,
    useUserShellEnvironment := false, usePlaceholderStatistics := false }

/-- The scenario settings with usage statistics enabled, making directive
evaluations observable in the persistent store. -/
def settsStats : Settings := { stdSettings with usePlaceholderStatistics := true }

/-- The empty initial state: no persistent variables, no local storage,
the used-UUID ledger never written, no files selected. -/
def st0 : PLState :=
  { persistentVars := [], localStorage := [], usedUUIDs := none,
    uuidCounter := 0, selectionLog := [] }

/-- A concrete collaborator environment: the frontmost application is
`TestApp`, `runJSInActiveTab` returns the application name it was invoked
in, every shell execution fails, and the UUID stream yields `u0`, `u1`, …. -/
def envDefault : Env :=
  { frontmostApp := some (chars ("TestApp"))
    runJS := fun _ app => .ok app
    execShell := fun _ _ => .error (chars ("fail"))
    uuidGen := fun n => chars ("u") ++ (toString n).data }

/-- A variant of the default environment whose UUID stream yields `ua`
first and `ub` from then on, exercising the used-UUID ledger with two
distinct concrete values. -/
def envC8 : Env :=
  { envDefault with uuidGen := fun n => if n = 0 then chars ("ua") else chars ("ub") }

/-- A variant of the default environment whose shell executor fails on the
script `false` and succeeds printing `hi` on every other script, separating
the script named in a directive from the script the code actually runs. -/
def envC9 : Env :=
  { envDefault with execShell := fun _ script =>
      if script == chars ("false") then Except.error (chars ("fail"))
      else Except.ok (chars ("hi")) }

/-- The state whose persistent variable `x` stores the text `{{get x}}`:
the stored value textually contains the directive's own pattern. -/
def stGet : PLState :=
  { st0 with persistentVars :=
      [{ name := chars ("x"), value := chars ("\x7b\x7bget x\x7d\x7d"),
         initialValue := chars ("\x7b\x7bget x\x7d\x7d") }] }

/-- A custom placeholder registered under the same regex-pattern key as the
built-in reset directive, with output `CUSTOM`. -/
def customResetCP : Placeholder :=
  customPlaceholder resetPat 0 (chars ("myCustom")) (chars ("CUSTOM"))

/-- The registry merged by `bulkApply` when the custom-placeholders file
contains exactly the colliding entry `customResetCP`. -/
def mergedRegistry : List (KeyT × Placeholder) :=
  jsSpread [((chars ("\x7b\x7breset [a-zA-Z0-9_]+\x7d\x7d"), resetPat), customResetCP)]
    placeholders

/-- The sub-registry containing the `currentAppName` directive and the
`focusedElement` directive that declares a dependency on it, in source
order; the omitted entries' patterns do not occur in the studied template
or in its brace-free substitution results, so the engine skips them. -/
def subregC2 : List (KeyT × Placeholder) :=
  [((chars ("\x7b\x7bcurrentAppName\x7d\x7d"), currentAppNamePat), currentAppNamePH),
   ((chars ("\x7b\x7bfocusedElement( browser=\"(.*?)\")?\x7d\x7d"), focusedElementPat), focusedElementPH)]

/-- The sub-registry containing only the uuid directive. -/
def subregUuid : List (KeyT × Placeholder) :=
  [((chars ("\x7b\x7buuid\x7d\x7d"), uuidPat), uuidPH)]

/-- The sub-registry containing only the shell directive. -/
def subregShell : List (KeyT × Placeholder) :=
  [((chars ("\x7b\x7bshell( .*)?:(.|[ \\n\\r\\s])*?\x7d\x7d"), shellPat), shellPH)]

/-- A string is brace-free: it contains neither `{` nor `}`.  All the
source's directive patterns begin with `{{`, so no pattern matches inside
a brace-free segment. -/
def braceFree (s : Str) : Prop := ∀ ch ∈ s, ch ≠ '\x7b' ∧ ch ≠ '\x7d'

/-- Divergence of `bulkApply`: the fuel-indexed model returns `none` at
every fuel, i.e. the source's while loop never exits. -/
def bulkApplyDiverges (reg : List (KeyT × Placeholder)) (env : Env) (setts : Settings)
    (s0 : Str) (ctx0 : Ctx) (st0 : PLState) : Prop :=
  ∀ fuel, bulkApply fuel reg env setts s0 ctx0 st0 = none

/-- Claim C1, counterexample: a custom placeholder registered under the
same regex-pattern key as the built-in `reset` directive, with output
`CUSTOM`, does not win.  Expanding `{{reset x}}` with both present runs
the built-in (the output is the built-in's empty string, and the built-in
side effect of creating the variable `x` happens), not the custom's
`CUSTOM`: in `{ ...customPlaceholders, ...placeholders }` the second
spread's value overrides the first on identical keys. -/
theorem C1_counterexample :
    bulkApply 1 mergedRegistry envDefault stdSettings
        (chars ("\x7b\x7breset x\x7d\x7d")) [] st0
      = some ([], [(chars ("result"), [])],
          { st0 with persistentVars :=
              [{ name := chars ("x"), value := [], initialValue := [] }] })
    ∧ ([] : Str) ≠ chars ("CUSTOM") :=
  ⟨rfl, by decide⟩

/-- Claim C2, counterexample: expanding `{{focusedElement}}` (whose
directive declares `dependencies := ["currentAppName"]`) with an empty
seed context and usage statistics enabled never evaluates the
`currentAppName` directive: the final context carries no `currentAppName`
field, and the usage ledger records only `focusedElement_count` — no
`currentAppName_count` — so the dependency's result keys were never
populated for the dependent's evaluation. -/
theorem C2_counterexample :
    bulkApply 2 placeholders envDefault settsStats
        (chars ("\x7b\x7bfocusedElement\x7d\x7d")) [] st0
      = some (chars ("TestApp"), [(chars ("result"), chars ("TestApp"))],
          { st0 with persistentVars :=
              [{ name := chars ("focusedElement_count"), value := chars ("1"),
                 initialValue := chars ("1") }] })
    ∧ ctxGet [(chars ("result"), chars ("TestApp"))] (chars ("currentAppName")) = none :=
  ⟨rfl, by decide⟩

/-- Claim C4: evaluating `{{decrement:c}}` when counter `c` stores `5`
returns and stores `6` — the source computes `parseInt(stored) + 1`,
incrementing instead of decrementing, contradicting its own documentation
("Directive to decrement a persistent counter variable by 1"). -/
theorem C4_theorem :
    decrementApply 0 (chars ("\x7b\x7bdecrement:c\x7d\x7d")) [] envDefault stdSettings
        { st0 with localStorage := [(chars ("id-c"), chars ("5"))] }
      = some (⟨chars ("6"), []⟩,
          { st0 with localStorage := [(chars ("id-c"), chars ("6"))] }) := by
  decide

/-- Claim C5: evaluating `{{reset x}}` when no variable `x` exists does
not leave the store unchanged: `resetPersistentVariable` returns the empty
string and the subsequent `setPersistentVariable(key, "")` creates the
record `{name := x, value := "", initialValue := ""}` — contradicting the
directive's own documentation ("If the variable does not exist, nothing
will happen"). -/
theorem C5_theorem :
    resetApply 0 (chars ("\x7b\x7breset x\x7d\x7d")) [] envDefault stdSettings st0
      = some (⟨[], []⟩,
          { st0 with persistentVars :=
              [{ name := chars ("x"), value := [], initialValue := [] }] }) := by
  decide

/-- Claim C6: the per-extension video and audio directives and the PDF
directive return named fields that do not include their declared
`result_keys`.  With `selectedFiles = a.pdf` (resp. `a.mp4`, `a.mp3`) the
success branch returns the field `image:pdf` (resp. `image:mp4`,
`image:mp3`), while the descriptors declare `contentForPDFs`,
`video:mp4` and `audio:mp3`. -/
theorem C6_theorem :
    (pdfApply 0 (chars ("\x7b\x7bpdf:A:B\x7d\x7d"))
        [(chars ("selectedFiles"), chars ("a.pdf"))] envDefault stdSettings st0
      = some (⟨chars ("A"), [(chars ("image:pdf"), chars ("A"))]⟩, st0))
    ∧ pdfPH.result_keys = some [chars ("contentForPDFs")]
    ∧ ((chars ("image:pdf"), chars ("A")) :: ([] : List (Str × Str))).all
        (fun p => p.1 != chars ("contentForPDFs")) = true
    ∧ (videoMp4Apply 0 (chars ("\x7b\x7bmp4:A:B\x7d\x7d"))
        [(chars ("selectedFiles"), chars ("a.mp4"))] envDefault stdSettings st0
      = some (⟨chars ("A"), [(chars ("image:mp4"), chars ("A"))]⟩, st0))
    ∧ videoMp4PH.result_keys = some [chars ("video:mp4")]
    ∧ (audioMp3Apply 0 (chars ("\x7b\x7bmp3:A:B\x7d\x7d"))
        [(chars ("selectedFiles"), chars ("a.mp3"))] envDefault stdSettings st0
      = some (⟨chars ("A"), [(chars ("image:mp3"), chars ("A"))]⟩, st0))
    ∧ audioMp3PH.result_keys = some [chars ("audio:mp3")] := by
  refine ⟨by decide, by decide, by decide, by decide, by decide, by decide, by decide⟩

/-- Claim C7: expanding `{{images:YES:NO}}` through `bulkApply` yields
`YES` when the seeded `selectedFiles` is `a.png,b.txt`, `NO` when it is
`a.txt`, and the empty string when the context has no `selectedFiles`
field at all. -/
theorem C7_theorem :
    (bulkApply 1 placeholders envDefault stdSettings
        (chars ("\x7b\x7bimages:YES:NO\x7d\x7d"))
        [(chars ("selectedFiles"), chars ("a.png,b.txt"))] st0
      = some (chars ("YES"),
          [(chars ("selectedFiles"), chars ("a.png,b.txt")),
           (chars ("result"), chars ("YES")),
           (chars ("contentForImages"), chars ("YES"))], st0))
    ∧ (bulkApply 1 placeholders envDefault stdSettings
        (chars ("\x7b\x7bimages:YES:NO\x7d\x7d"))
        [(chars ("selectedFiles"), chars ("a.txt"))] st0
      = some (chars ("NO"),
          [(chars ("selectedFiles"), chars ("a.txt")),
           (chars ("result"), chars ("NO")),
           (chars ("contentForImages"), chars ("NO"))], st0))
    ∧ (bulkApply 1 placeholders envDefault stdSettings
        (chars ("\x7b\x7bimages:YES:NO\x7d\x7d")) [] st0
      = some ([], [(chars ("result"), []), (chars ("contentForImages"), [])], st0)) := by
  refine ⟨by decide, by decide, by decide⟩

/-- Claim C10, counterexample: the input `{{selectFile:selectFiles:/tmp/b}}`
matches the directive's own pattern, yet its evaluation does invoke the
file-selection collaborator (with `/tmp/b`): the argument regex's
`selectFiles:` token can occur inside text matched by the directive's own
pattern, so the evaluator is not side-effect-free on every input. -/
theorem C10_counterexample :
    (selectFileApply 0 (chars ("\x7b\x7bselectFile:selectFiles:/tmp/b\x7d\x7d"))
        [] envDefault stdSettings st0
      = some (⟨[], []⟩, { st0 with selectionLog := [chars ("/tmp/b")] }))
    ∧ rMatches selectFilePat (chars ("\x7b\x7bselectFile:selectFiles:/tmp/b\x7d\x7d")) = true :=
  ⟨rfl, by decide⟩

/-- Folding `jsAssign` over entries whose keys are fresh for the
accumulator and pairwise distinct just appends them. -/
theorem foldl_jsAssign_fresh :
    ∀ (l acc : List (KeyT × Placeholder)),
      (∀ s ∈ l.map (fun p => p.1.1), ∀ t ∈ acc.map (fun p => p.1.1), (t == s) = false) →
      List.Pairwise (fun s t => (s == t) = false) (l.map (fun p => p.1.1)) →
      List.foldl jsAssign acc l = acc ++ l := by
  intro l
  induction l with
  | nil => intro acc _ _; simp
  | cons kv l' ih =>
    intro acc h hp
    rw [List.map_cons, List.pairwise_cons] at hp
    have hany : acc.any (fun p => p.1.1 == kv.1.1) = false := by
      rw [List.any_eq_false]
      intro p hpmem
      have hf := h kv.1.1 (by rw [List.map_cons]; exact List.mem_cons_self _ _) p.1.1
        (List.mem_map_of_mem _ hpmem)
      simp [hf]
    have hstep : jsAssign acc kv = acc ++ [kv] := by
      simp only [jsAssign, hany]
      simp
    have h' : ∀ s ∈ l'.map (fun p => p.1.1),
        ∀ t ∈ (acc ++ [kv]).map (fun p => p.1.1), (t == s) = false := by
      intro s hs t ht
      rw [List.map_append] at ht
      rcases List.mem_append.mp ht with h1 | h1
      · exact h s (by rw [List.map_cons]; exact List.mem_cons_of_mem _ hs) t h1
      · have ht2 : t = kv.1.1 := by
          rw [List.map_cons, List.map_nil] at h1
          exact List.mem_singleton.mp h1
        subst ht2
        exact hp.1 s hs
    rw [List.foldl_cons, hstep, ih (acc ++ [kv]) h' hp.2]
    simp

/-- Claim C1, amended: on identical keys the built-in wins, not the
custom.  Merging a custom placeholder registered under the built-in reset
directive's exact pattern key produces the built-in registry unchanged
(the second spread in `{ ...customPlaceholders, ...placeholders }`
overrides the first), so expanding any template with the merged registry
is identical to expanding with the built-ins alone — the custom entry is
ignored entirely. -/
theorem C1_amended (cp : Placeholder) (fuel : Nat) (env : Env) (setts : Settings)
    (s : Str) (ctx : Ctx) (st : PLState) :
    bulkApply fuel
        (jsSpread [((chars ("\x7b\x7breset [a-zA-Z0-9_]+\x7d\x7d"), resetPat), cp)] placeholders)
        env setts s ctx st
      = bulkApply fuel placeholders env setts s ctx st := by
  have hm : jsSpread
      [((chars ("\x7b\x7breset [a-zA-Z0-9_]+\x7d\x7d"), resetPat), cp)] placeholders
      = placeholders := by
    rw [jsSpread, List.foldl_append]
    have h1 : List.foldl jsAssign []
        [((chars ("\x7b\x7breset [a-zA-Z0-9_]+\x7d\x7d"), resetPat), cp)]
        = [((chars ("\x7b\x7breset [a-zA-Z0-9_]+\x7d\x7d"), resetPat), cp)] := by
      simp [jsAssign]
    rw [h1]
    show List.foldl jsAssign _ (_ :: _) = _
    rw [List.foldl_cons]
    have h2 : jsAssign [((chars ("\x7b\x7breset [a-zA-Z0-9_]+\x7d\x7d"), resetPat), cp)]
        ((chars ("\x7b\x7breset [a-zA-Z0-9_]+\x7d\x7d"), resetPat), resetPH)
        = [((chars ("\x7b\x7breset [a-zA-Z0-9_]+\x7d\x7d"), resetPat), resetPH)] := by
      simp [jsAssign]
    rw [h2, foldl_jsAssign_fresh _ _ (by decide) (by decide)]
    rfl
  rw [hm]

/-- Claim C10, amended: the selectFile evaluator always returns
`{result: ""}`, and it leaves the file selection untouched whenever its
input does not contain the literal token `selectFiles:` — in particular on
every well-formed `{{selectFile:path}}` whose argument does not itself
spell out `selectFiles:`.  (When the input does contain that token
followed by `}}` with a nonempty argument, the collaborator is invoked,
as the counterexample shows.) -/
theorem C10_amended (s : Str) (ctx : Ctx) (env : Env) (setts : Settings)
    (st : PLState) (fl : Nat)
    (h : occursStr (chars ("selectFiles:")) s = false) :
    selectFileApply fl s ctx env setts st = some (⟨[], []⟩, st) := by
  have hidx : idxOf (chars ("selectFiles:")) s = none := by
    rcases hx : idxOf (chars ("selectFiles:")) s with _ | v
    · rfl
    · rw [occursStr, hx] at h
      simp at h
  simp [selectFileApply, lookbehindArg, afterTok, hidx]

/-- Claim C10, witness for the amended theorem at a concrete input. -/
theorem C10_amended_witness :
    selectFileApply 0 (chars ("\x7b\x7bselectFile:/tmp/a\x7d\x7d")) [] envDefault
        stdSettings st0 = some (⟨[], []⟩, st0) :=
  C10_amended _ _ _ _ _ _ (by decide)

/-- One iteration of the while-loop on `{{get x}}` when variable `x` stores
the text `{{get x}}`: the evaluation returns the stored value, the
first-occurrence replacement rebuilds the identical template, and the
state is unchanged — the loop configuration is invariant. -/
theorem getLoop_step (n : Nat) (ctx : Ctx) :
    applyLoop getPH getPat envDefault stdSettings (n + 1)
        (chars ("\x7b\x7bget x\x7d\x7d")) ctx none stGet
      = applyLoop getPH getPat envDefault stdSettings n
          (chars ("\x7b\x7bget x\x7d\x7d"))
          (ctxSet ctx (chars ("result")) (chars ("\x7b\x7bget x\x7d\x7d"))) none stGet := rfl

/-- The while-loop on `{{get x}}` with the self-reproducing stored value
exhausts any amount of fuel: the modelled loop diverges. -/
theorem getLoop_none : ∀ (fuel : Nat) (ctx : Ctx),
    applyLoop getPH getPat envDefault stdSettings fuel
        (chars ("\x7b\x7bget x\x7d\x7d")) ctx none stGet = none := by
  intro fuel
  induction fuel with
  | zero => intro ctx; rfl
  | succ n ih => intro ctx; rw [getLoop_step]; exact ih _

/-- Claim C3, counterexample: expansion does not always terminate.  With
the persistent variable `x` storing the text `{{get x}}`, `bulkApply` on
the template `{{get x}}` returns no result for any fuel: the non-constant
get directive's first-occurrence replacement reproduces the template
verbatim, so the source's `while (subbedStr.match(...) != undefined)`
loop never exits. -/
theorem C3_counterexample :
    bulkApplyDiverges placeholders envDefault stdSettings
        (chars ("\x7b\x7bget x\x7d\x7d")) [] stGet := by
  intro fuel
  have hlk : loopKeys getPH envDefault stdSettings fuel [getPat]
      (chars ("\x7b\x7bget x\x7d\x7d")) [] none stGet = none := by
    simp only [loopKeys]
    rw [getLoop_none]
  have hshape : bulkApply fuel placeholders envDefault stdSettings
      (chars ("\x7b\x7bget x\x7d\x7d")) [] stGet
      = (match (match loopKeys getPH envDefault stdSettings fuel [getPat]
              (chars ("\x7b\x7bget x\x7d\x7d")) [] none stGet with
          | none => none
          | some (s', c', _, st') => some (s', c', st')) with
         | none => none
         | some (s2, c2, st2) =>
           processEntries placeholders envDefault stdSettings fuel
             (placeholders.drop 2) s2 c2 st2) := rfl
  rw [hshape, hlk]

/-- For a constant directive with a total evaluator the while-loop always
returns: one evaluation, a replace-all, and the `break`. -/
theorem applyLoop_const_isSome (ph : Placeholder) (re : Regex) (env : Env) (setts : Settings)
    (hc : ph.constant = true)
    (ht : ∀ fl s c st, (ph.apply fl s c env setts st).isSome = true) :
    ∀ (f : Nat) (s : Str) (c : Ctx) (rk : Option (List Str)) (st : PLState),
      (applyLoop ph re env setts (f + 1) s c rk st).isSome = true := by
  intro f s c rk st
  simp only [applyLoop]
  split
  · cases happ : ph.apply f s c env setts st with
    | none =>
      have hcontra := ht f s c st
      rw [happ] at hcontra
      simp at hcontra
    | some v => simp [happ, hc]
  · simp

/-- The per-pattern loops of one constant, total entry always return. -/
theorem loopKeys_const_isSome (ph : Placeholder) (env : Env) (setts : Settings)
    (hc : ph.constant = true)
    (ht : ∀ fl s c st, (ph.apply fl s c env setts st).isSome = true) :
    ∀ (keys : List Regex) (f : Nat) (s : Str) (c : Ctx) (rk : Option (List Str))
      (st : PLState), (loopKeys ph env setts (f + 1) keys s c rk st).isSome = true := by
  intro keys
  induction keys with
  | nil => intro f s c rk st; simp [loopKeys]
  | cons re rest ih =>
    intro f s c rk st
    simp only [loopKeys]
    cases happ : applyLoop ph re env setts (f + 1) s c rk st with
    | none =>
      have hcontra := applyLoop_const_isSome ph re env setts hc ht f s c rk st
      rw [happ] at hcontra
      simp at hcontra
    | some v =>
      rcases v with ⟨s', c', rk', st'⟩
      exact ih f s' c' rk' st'

/-- Processing one constant, total registry entry always returns. -/
theorem processEntry_const_isSome (reg : List (KeyT × Placeholder)) (env : Env)
    (setts : Settings) (kv : KeyT × Placeholder) (hc : kv.2.constant = true)
    (ht : ∀ fl s c st, ((kv.2).apply fl s c env setts st).isSome = true) :
    ∀ (f : Nat) (s : Str) (c : Ctx) (st : PLState),
      (processEntry reg env setts (f + 1) kv s c st).isSome = true := by
  intro f s c st
  have haux : ∀ (keys : List Regex) (rk : Option (List Str)),
      (match loopKeys kv.2 env setts (f + 1) keys s c rk st with
       | none => none
       | some (s', c', _, st') => some (s', c', st')).isSome = true := by
    intro keys rk
    cases hlk : loopKeys kv.2 env setts (f + 1) keys s c rk st with
    | none =>
      have hcontra := loopKeys_const_isSome kv.2 env setts hc ht keys f s c rk st
      rw [hlk] at hcontra
      simp at hcontra
    | some v =>
      rcases v with ⟨s', c', rk', st'⟩
      simp
  simp only [processEntry]
  split
  · split
    · simp
    · split
      · simp
      · exact haux _ _
  · split
    · simp
    · split
      · simp
      · exact haux _ _

/-- The main loop over constant, total registry entries always returns. -/
theorem processEntries_const_isSome (reg : List (KeyT × Placeholder)) (env : Env)
    (setts : Settings) :
    ∀ (entries : List (KeyT × Placeholder)),
      (∀ kv ∈ entries, kv.2.constant = true) →
      (∀ kv ∈ entries, ∀ fl s c st, ((kv.2).apply fl s c env setts st).isSome = true) →
      ∀ (f : Nat) (s : Str) (c : Ctx) (st : PLState),
        (processEntries reg env setts (f + 1) entries s c st).isSome = true := by
  intro entries
  induction entries with
  | nil => intro _ _ f s c st; simp [processEntries]
  | cons kv rest ih =>
    intro hcs hts f s c st
    simp only [processEntries]
    cases hpe : processEntry reg env setts (f + 1) kv s c st with
    | none =>
      have hcontra := processEntry_const_isSome reg env setts kv
        (hcs kv (List.mem_cons_self _ _)) (hts kv (List.mem_cons_self _ _)) f s c st
      rw [hpe] at hcontra
      simp at hcontra
    | some v =>
      rcases v with ⟨s', c', st'⟩
      exact ih (fun x hx => hcs x (List.mem_cons_of_mem _ hx))
        (fun x hx => hts x (List.mem_cons_of_mem _ hx)) f s' c' st'

/-- Claim C3, amended: expansion terminates (for any positive fuel)
whenever every registry directive is constant and every evaluator is
total, since each pattern is then evaluated at most once and replaced
everywhere in one step; a non-constant directive whose evaluation result
still contains its own pattern makes expansion diverge, as the
counterexample shows. -/
theorem C3_amended (reg : List (KeyT × Placeholder)) (env : Env) (setts : Settings)
    (f : Nat) (s : Str) (ctx : Ctx) (st : PLState)
    (hconst : ∀ kv ∈ reg, kv.2.constant = true)
    (htotal : ∀ kv ∈ reg, ∀ fl s' c' st',
      ((kv.2).apply fl s' c' env setts st').isSome = true) :
    (bulkApply (f + 1) reg env setts s ctx st).isSome = true := by
  simp only [bulkApply]
  split
  · simp
  · exact processEntries_const_isSome reg env setts reg hconst htotal f _ ctx _

/-- The images evaluator is total: every branch returns a result. -/
theorem imagesApply_isSome (fl : Nat) (s : Str) (c : Ctx) (env : Env) (setts : Settings)
    (st : PLState) : (imagesApply fl s c env setts st).isSome = true := by
  unfold imagesApply
  repeat' split
  all_goals first
  | (simp; done)
  | (dsimp only; split <;> simp)

/-- Claim C3, witness for the amended theorem: the all-constant registry
containing the images directive terminates on a concrete template. -/
theorem C3_amended_witness :
    (bulkApply 1 [((chars ("\x7b\x7bimages:(([^\x7b]|\x7b(?!\x7b)|\x7b\x7b[\\s\\S]*?\x7d\x7d)*?)(:(([^\x7b]|\x7b(?!\x7b)|\x7b\x7b[\\s\\S]*?\x7d\x7d)*?))?\x7d\x7d"), imagesPat), imagesPH)]
        envDefault stdSettings (chars ("\x7b\x7bimages:YES:NO\x7d\x7d")) [] st0).isSome = true :=
  C3_amended _ envDefault stdSettings 0 _ [] st0
    (by intro kv hkv
        rcases List.mem_singleton.mp hkv with h
        rw [h]
        rfl)
    (by intro kv hkv fl s' c' st'
        rcases List.mem_singleton.mp hkv with h
        rw [h]
        exact imagesApply_isSome fl s' c' envDefault stdSettings st')

/-- A pattern that must begin with a literal character has no parse on the
empty string. -/
theorem parsesF_cat_single_nil (n : Nat) (c : Char) (r : Regex) :
    parsesF n (.cat (.cc (.single c)) r) [] = [] := by
  cases n <;> simp [parsesF, parsesInner]

/-- A pattern that must begin with a literal character has no parse on a
string starting with a different character. -/
theorem parsesF_cat_single_ne (n : Nat) (c d : Char) (r : Regex) (rest : Str)
    (h : d ≠ c) :
    parsesF n (.cat (.cc (.single c)) r) (d :: rest) = [] := by
  cases n <;> simp [parsesF, parsesInner, CCls.test, h]

/-- A `{`-headed pattern — every directive pattern of the source — matches
nowhere in a string that contains no `{`. -/
theorem findFirstAux_braceFree_none (r : Regex) :
    ∀ (s : Str) (i : Nat), (∀ ch ∈ s, ch ≠ '\x7b') →
      findFirstAux (.cat (.cc (.single '\x7b')) r) s i = none := by
  intro s
  induction s with
  | nil =>
    intro i _
    simp [findFirstAux, matchEnd, parses, parsesF_cat_single_nil]
  | cons d rest ih =>
    intro i h
    have hd : d ≠ '\x7b' := (h d (List.mem_cons_self _ _))
    simp only [findFirstAux, matchEnd, parses, parsesF_cat_single_ne _ _ _ _ _ hd]
    exact ih (i + 1) (fun ch hch => h ch (List.mem_cons_of_mem _ hch))

/-- A `{`-headed pattern does not match in a `{`-free string. -/
theorem rMatches_braceFree_false (r : Regex) (s : Str)
    (h : ∀ ch ∈ s, ch ≠ '\x7b') :
    rMatches (.cat (.cc (.single '\x7b')) r) s = false := by
  simp [rMatches, findFirst, findFirstAux_braceFree_none r s 0 h]

/-- Scanning for a `{`-headed pattern skips over a `{`-free prefix. -/
theorem findFirstAux_skip (r : Regex) :
    ∀ (x : Str) (s : Str) (i : Nat), (∀ ch ∈ x, ch ≠ '\x7b') →
      findFirstAux (.cat (.cc (.single '\x7b')) r) (x ++ s) i
        = findFirstAux (.cat (.cc (.single '\x7b')) r) s (i + x.length) := by
  intro x
  induction x with
  | nil => intro s i _; simp
  | cons d rest ih =>
    intro s i h
    have hd : d ≠ '\x7b' := (h d (List.mem_cons_self _ _))
    rw [List.cons_append]
    simp only [findFirstAux, matchEnd, parses, parsesF_cat_single_ne _ _ _ _ _ hd]
    rw [ih s (i + 1) (fun ch hch => h ch (List.mem_cons_of_mem _ hch))]
    congr 1
    simp
    omega

/-- Claim C2, amended: dependency patterns are appended to the check set
after the entry's own patterns, and a dependency is evaluated only while
its own token textually matches the template.  Expanding
`{{focusedElement}}` — whose directive depends on `currentAppName` — with
an empty seed context therefore never evaluates `currentAppName`: the
evaluator falls back on the frontmost-application collaborator directly,
the expansion returns that evaluation's result, and the final context
(shown in full) carries no `currentAppName` field. -/
theorem C2_amended (env : Env) (st : PLState) (app out : Str) (f : Nat)
    (h1 : env.frontmostApp = some app)
    (h2 : env.runJS (chars ("document.activeElement.innerText")) app = Except.ok out)
    (h3 : ∀ ch ∈ out, ch ≠ '\x7b') :
    bulkApply (f + 1) subregC2 env stdSettings
        (chars ("\x7b\x7bfocusedElement\x7d\x7d")) [] st
      = some (out, [(chars ("result"), out)], st)
    ∧ ctxGet [(chars ("result"), out)] (chars ("currentAppName")) = none := by
  have happ : focusedElementApply f (chars ("\x7b\x7bfocusedElement\x7d\x7d")) [] env
      stdSettings st = some (⟨out, []⟩, st) := by
    unfold focusedElementApply
    rw [show findFirst browserArgPat (chars ("\x7b\x7bfocusedElement\x7d\x7d")) = none
      from by decide]
    simp only [jsTruthy, ctxGet, List.find?, Option.map]
    rw [h1]
    dsimp only
    rw [h2]
  have hrf : replaceFirst focusedElementPat out (chars ("\x7b\x7bfocusedElement\x7d\x7d"))
      = out := by
    simp only [replaceFirst]
    rw [show findFirst focusedElementPat (chars ("\x7b\x7bfocusedElement\x7d\x7d"))
      = some (0, 18, []) from by decide]
    simp
    decide
  have hnm : rMatches focusedElementPat out = false :=
    rMatches_braceFree_false _ out h3
  have hnm2 : rMatches currentAppNamePat out = false :=
    rMatches_braceFree_false _ out h3
  have hloopf : applyLoop focusedElementPH focusedElementPat env stdSettings f
      out [(chars ("result"), out)] none st
      = some (out, [(chars ("result"), out)], none, st) := by
    rw [applyLoop.eq_def]
    dsimp only
    rw [hnm]
    simp
  have hloop1 : applyLoop focusedElementPH focusedElementPat env stdSettings (f + 1)
      (chars ("\x7b\x7bfocusedElement\x7d\x7d")) [] none st
      = some (out, [(chars ("result"), out)], none, st) := by
    simp only [applyLoop]
    rw [show rMatches focusedElementPat (chars ("\x7b\x7bfocusedElement\x7d\x7d")) = true
      from by decide]
    simp only [if_true]
    rw [show focusedElementPH.apply = focusedElementApply from rfl, happ]
    dsimp only
    rw [show focusedElementPH.constant = false from rfl,
      show stdSettings.usePlaceholderStatistics = false from rfl]
    simp only [Bool.false_eq_true, if_false]
    rw [hrf]
    rw [show mergeEntries [] none (AppRes.entries ⟨out, []⟩)
      = ([(chars ("result"), out)], none) from rfl]
    exact hloopf
  have hloop2 : applyLoop focusedElementPH currentAppNamePat env stdSettings (f + 1)
      out [(chars ("result"), out)] none st
      = some (out, [(chars ("result"), out)], none, st) := by
    rw [applyLoop.eq_def]
    dsimp only
    rw [hnm2]
    simp
  have hlk : loopKeys focusedElementPH env stdSettings (f + 1)
      [focusedElementPat, currentAppNamePat]
      (chars ("\x7b\x7bfocusedElement\x7d\x7d")) [] none st
      = some (out, [(chars ("result"), out)], none, st) := by
    simp only [loopKeys]
    rw [hloop1]
    dsimp only
    rw [hloop2]
  constructor
  · have hshape : bulkApply (f + 1) subregC2 env stdSettings
        (chars ("\x7b\x7bfocusedElement\x7d\x7d")) [] st
        = (match (match loopKeys focusedElementPH env stdSettings (f + 1)
              [focusedElementPat, currentAppNamePat]
              (chars ("\x7b\x7bfocusedElement\x7d\x7d")) [] none st with
           | none => none
           | some (s2, c2, _, st2) => some (s2, c2, st2)) with
          | none => none
          | some (s3, c3, st3) => some (s3, c3, st3)) := rfl
    rw [hshape, hlk]
  · simp [ctxGet, List.find?,
      show ((chars ("result")) == (chars ("currentAppName"))) = false from by decide]

/-- Claim C2, witness for the amended theorem at a concrete environment. -/
theorem C2_amended_witness :
    bulkApply 2 subregC2 envDefault stdSettings
        (chars ("\x7b\x7bfocusedElement\x7d\x7d")) [] st0
      = some (chars ("TestApp"), [(chars ("result"), chars ("TestApp"))], st0)
    ∧ ctxGet [(chars ("result"), chars ("TestApp"))] (chars ("currentAppName")) = none :=
  C2_amended envDefault st0 (chars ("TestApp")) (chars ("TestApp")) 1 rfl rfl (by decide)

theorem parsesInner_rlit (sc : Regex → Str → List (Str × Caps)) :
    ∀ (m t : Str), parsesInner sc (rlit m) (m ++ t) = [(t, [])] := by
  intro m
  induction m with
  | nil => intro t; simp [rlit, litThen, parsesInner]
  | cons c cs ih =>
    intro t
    show parsesInner sc (.cat (.cc (.single c)) (rlit cs)) (c :: (cs ++ t)) = _
    simp [parsesInner, CCls.test, ih t, mergeCaps]

theorem parsesF_rlit (n : Nat) (m t : Str) :
    parsesF n (rlit m) (m ++ t) = [(t, [])] := by
  cases n <;> exact parsesInner_rlit _ m t

theorem matchEnd_rlit (m t : Str) : matchEnd (rlit m) (m ++ t) = some (m.length, []) := by
  unfold matchEnd
  rw [show parses (rlit m) (m ++ t) = [(t, [])] from parsesF_rlit (m ++ t).length m t]
  dsimp only
  rw [List.length_append, Nat.add_sub_cancel]

theorem findFirstAux_step (r : Regex) (s : Str) (i : Nat) :
    findFirstAux r s i = match matchEnd r s with
      | some (len, cps) => some (i, len, cps)
      | none => match s with
        | [] => none
        | _ :: rest => findFirstAux r rest (i + 1) := by
  cases s <;> simp only [findFirstAux]

theorem findFirstAux_hit (r : Regex) (s : Str) (i len : Nat) (cps : Caps)
    (h : matchEnd r s = some (len, cps)) : findFirstAux r s i = some (i, len, cps) := by
  rw [findFirstAux_step, h]

theorem findFirst_boundary (m : Str) (hm : m = '\x7b' :: m.tail) :
    ∀ (x t : Str), (∀ ch ∈ x, ch ≠ '\x7b') →
      findFirst (rlit m) (x ++ m ++ t) = some (x.length, m.length, []) := by
  intro x t hx
  have hshape : rlit m = .cat (.cc (.single '\x7b')) (litThen m.tail .eps) := by
    rw [hm]
    rfl
  rw [findFirst, List.append_assoc, hshape, findFirstAux_skip _ x (m ++ t) 0 hx, ← hshape,
    Nat.zero_add]
  exact findFirstAux_hit _ _ _ _ _ (matchEnd_rlit m t)

theorem replaceFirst_boundary (m u x t : Str) (hm : m = '\x7b' :: m.tail)
    (hx : ∀ ch ∈ x, ch ≠ '\x7b') :
    replaceFirst (rlit m) u (x ++ m ++ t) = x ++ u ++ t := by
  have h1 : (x ++ m ++ t).take x.length = x := by
    rw [List.append_assoc]
    exact List.take_left x (m ++ t)
  have h2 : (x ++ m ++ t).drop (x.length + m.length) = t := by
    rw [← List.length_append]
    exact List.drop_left (x ++ m) t
  rw [replaceFirst, findFirst_boundary m hm x t hx]
  dsimp only
  rw [h1, h2]

theorem pickFreshUUID_spec (env : Env) (used : List Str) :
    ∀ (fl ctr : Nat) (u : Str) (ctr' : Nat),
      pickFreshUUID env used fl ctr = some (u, ctr') →
      used.contains u = false ∧ ∃ k, u = env.uuidGen k := by
  intro fl
  induction fl with
  | zero => intro ctr u ctr' h; simp [pickFreshUUID] at h
  | succ n ih =>
    intro ctr u ctr' h
    simp only [pickFreshUUID] at h
    by_cases hc : used.contains (env.uuidGen ctr)
    · rw [if_pos hc] at h
      exact ih _ _ _ h
    · rw [if_neg hc] at h
      simp only [Option.some.injEq, Prod.mk.injEq] at h
      obtain ⟨hu, _⟩ := h
      subst hu
      exact ⟨by simpa using hc, ⟨ctr, rfl⟩⟩

theorem contains_true_of_mem {l : List Str} {u : Str} (hm : u ∈ l) :
    l.contains u = true := by
  induction l with
  | nil => cases hm
  | cons a as ih =>
    rcases List.mem_cons.mp hm with h1 | h2
    · subst h1
      simp [List.contains_cons]
    · rw [List.contains_cons, ih h2, Bool.or_true]

theorem contains_false_not_mem {l : List Str} {u : Str} (h : l.contains u = false) :
    u ∉ l := by
  intro hm
  rw [contains_true_of_mem hm] at h
  cases h

theorem uuidApply_spec (fuel : Nat) (s : Str) (c : Ctx) (env : Env) (setts : Settings)
    (st : PLState) (res : AppRes) (st' : PLState)
    (h : uuidApply fuel s c env setts st = some (res, st')) :
    ∃ k prev, res.result = env.uuidGen k ∧
      res.extras = [(chars ("uuid"), env.uuidGen k)] ∧
      st'.usedUUIDs = some (prev ++ [env.uuidGen k]) ∧
      prev.contains (env.uuidGen k) = false ∧
      (∀ l, st.usedUUIDs = some l → prev = l) := by
  unfold uuidApply at h
  cases hsu : st.usedUUIDs with
  | none =>
    rw [hsu] at h
    dsimp only at h
    simp only [Option.some.injEq, Prod.mk.injEq] at h
    obtain ⟨hres, hst⟩ := h
    subst hres hst
    refine ⟨st.uuidCounter, [], rfl, rfl, by simp, rfl, ?_⟩
    intro l hl
    cases hl
  | some used =>
    rw [hsu] at h
    dsimp only at h
    cases hp : pickFreshUUID env used (fuel + 1) st.uuidCounter with
    | none => rw [hp] at h; simp at h
    | some p =>
      rw [hp] at h
      simp only [Option.map, Option.some.injEq, Prod.mk.injEq] at h
      obtain ⟨hres, hst⟩ := h
      subst hres hst
      obtain ⟨hcont, k, hk⟩ := pickFreshUUID_spec env used _ _ _ _ hp
      refine ⟨k, used, ?_, ?_, ?_, ?_, ?_⟩
      · simp [hk]
      · simp [hk]
      · simp [hk]
      · rw [← hk]; exact hcont
      · exact fun l hl => Option.some.inj hl

theorem braceFree_append {x y : Str} (hx : braceFree x) (hy : braceFree y) :
    braceFree (x ++ y) := by
  intro ch h
  rcases List.mem_append.mp h with h1 | h2
  · exact hx ch h1
  · exact hy ch h2

theorem braceFree_lb {x : Str} (h : braceFree x) : ∀ ch ∈ x, ch ≠ '\x7b' :=
  fun ch hm => (h ch hm).1

theorem loopKeys_single (ph : Placeholder) (env : Env) (setts : Settings) (fuel : Nat)
    (re : Regex) (s : Str) (c : Ctx) (rk : Option (List Str)) (st : PLState) :
    loopKeys ph env setts fuel [re] s c rk st = applyLoop ph re env setts fuel s c rk st := by
  simp only [loopKeys]
  cases h : applyLoop ph re env setts fuel s c rk st with
  | none => rfl
  | some q =>
    rcases q with ⟨s', c', rk', st'⟩
    simp [loopKeys]

theorem processEntry_uuid (reg : List (KeyT × Placeholder)) (env : Env) (fuel : Nat)
    (tmpl : Str) (ctx : Ctx) (st : PLState)
    (hAl : rMatches uuidAliasPat tmpl = false)
    (hK : rMatches uuidPat tmpl = true) :
    processEntry reg env stdSettings fuel
        ((chars ("\x7b\x7buuid\x7d\x7d"), uuidPat), uuidPH) tmpl ctx st
      = match loopKeys uuidPH env stdSettings fuel [uuidPat] tmpl ctx none st with
        | none => none
        | some (s', c', _, st') => some (s', c', st') := by
  unfold processEntry
  dsimp only
  rw [show uuidPH.aliases = [uuidAliasPat] from rfl]
  rw [show List.filter (fun a => rMatches a tmpl) [uuidAliasPat] = [] from by
    simp [List.filter, hAl]]
  rw [hK]
  simp only [if_true, List.nil_append, List.isEmpty]
  rw [show uuidPH.result_keys = none from rfl]
  simp only [Option.map]
  rw [show uuidPH.dependencies = [] from rfl]
  simp only [List.foldl, List.append_nil]
  simp

/-- Claim C8: for every template `a{{uuid}}b{{uuid}}c` with brace-free
surrounding segments (and no `{{UUID}}` alias occurrence), whenever
`bulkApply` returns, the two values substituted for the two occurrences of
the non-constant uuid directive are distinct: the first value is appended
to the used-UUID ledger, and the second draw retries until it is outside
the ledger. -/
theorem C8_uuid_distinct (env : Env) (st : PLState) (a b c : Str) (fuel : Nat)
    (out : Str × Ctx × PLState)
    (ha : braceFree a) (hb : braceFree b) (hc : braceFree c)
    (hg : ∀ n, braceFree (env.uuidGen n))
    (hAl : rMatches uuidAliasPat
      (a ++ chars ("\x7b\x7buuid\x7d\x7d") ++ b ++ chars ("\x7b\x7buuid\x7d\x7d") ++ c)
      = false)
    (hrun : bulkApply fuel subregUuid env stdSettings
      (a ++ chars ("\x7b\x7buuid\x7d\x7d") ++ b ++ chars ("\x7b\x7buuid\x7d\x7d") ++ c) [] st
      = some out) :
    ∃ u1 u2, out.1 = a ++ u1 ++ b ++ u2 ++ c ∧ u1 ≠ u2 := by
  have htkc : chars ("\x7b\x7buuid\x7d\x7d")
      = '\x7b' :: (chars ("\x7b\x7buuid\x7d\x7d")).tail := rfl
  have hu : uuidPat = rlit (chars ("\x7b\x7buuid\x7d\x7d")) := rfl
  have ha' : ∀ ch ∈ a, ch ≠ '\x7b' := braceFree_lb ha
  have hfind1 : findFirst uuidPat
      (a ++ chars ("\x7b\x7buuid\x7d\x7d") ++ b ++ chars ("\x7b\x7buuid\x7d\x7d") ++ c)
      = some (a.length, (chars ("\x7b\x7buuid\x7d\x7d")).length, []) := by
    rw [hu, show a ++ chars ("\x7b\x7buuid\x7d\x7d") ++ b ++ chars ("\x7b\x7buuid\x7d\x7d") ++ c
      = a ++ chars ("\x7b\x7buuid\x7d\x7d") ++ (b ++ chars ("\x7b\x7buuid\x7d\x7d") ++ c)
      from by simp [List.append_assoc]]
    exact findFirst_boundary _ htkc a _ ha'
  have hK1 : rMatches uuidPat
      (a ++ chars ("\x7b\x7buuid\x7d\x7d") ++ b ++ chars ("\x7b\x7buuid\x7d\x7d") ++ c)
      = true := by
    unfold rMatches
    rw [hfind1]
    rfl
  rw [show bulkApply fuel subregUuid env stdSettings
      (a ++ chars ("\x7b\x7buuid\x7d\x7d") ++ b ++ chars ("\x7b\x7buuid\x7d\x7d") ++ c) [] st
    = processEntries subregUuid env stdSettings fuel subregUuid
      (a ++ chars ("\x7b\x7buuid\x7d\x7d") ++ b ++ chars ("\x7b\x7buuid\x7d\x7d") ++ c) [] st
    from rfl] at hrun
  rw [show subregUuid = [((chars ("\x7b\x7buuid\x7d\x7d"), uuidPat), uuidPH)] from rfl] at hrun
  simp only [processEntries] at hrun
  rw [processEntry_uuid _ env fuel _ [] st hAl hK1, loopKeys_single] at hrun
  cases hls : applyLoop uuidPH uuidPat env stdSettings fuel
      (a ++ chars ("\x7b\x7buuid\x7d\x7d") ++ b ++ chars ("\x7b\x7buuid\x7d\x7d") ++ c)
      [] none st with
  | none =>
    rw [hls] at hrun
    simp at hrun
  | some q =>
    rcases q with ⟨s1, c1, rk1, st1⟩
    rw [hls] at hrun
    dsimp only at hrun
    have hout : out = (s1, c1, st1) := (Option.some.inj hrun).symm
    subst hout
    rw [applyLoop.eq_def] at hls
    dsimp only at hls
    rw [hK1] at hls
    simp only [if_true] at hls
    cases fuel with
    | zero => simp at hls
    | succ f1 =>
      dsimp only at hls
      rw [show uuidPH.apply = uuidApply from rfl] at hls
      cases hap1 : uuidApply f1
          (a ++ chars ("\x7b\x7buuid\x7d\x7d") ++ b ++ chars ("\x7b\x7buuid\x7d\x7d") ++ c)
          [] env stdSettings st with
      | none =>
        rw [hap1] at hls
        simp at hls
      | some pr1 =>
        rcases pr1 with ⟨res1, st1'⟩
        rw [hap1] at hls
        dsimp only at hls
        rw [show uuidPH.constant = false from rfl,
          show stdSettings.usePlaceholderStatistics = false from rfl] at hls
        simp only [Bool.false_eq_true, if_false] at hls
        obtain ⟨k1, prev1, hres1, hext1, hst1u, hcont1, hprev1⟩ :=
          uuidApply_spec _ _ _ _ _ _ _ _ hap1
        rcases res1 with ⟨r1, e1⟩
        dsimp only at hres1 hext1
        subst hres1
        subst hext1
        dsimp only at hls
        have hme1 : mergeEntries [] none
            (AppRes.entries ⟨env.uuidGen k1, [(chars ("uuid"), env.uuidGen k1)]⟩)
            = ([(chars ("result"), env.uuidGen k1), (chars ("uuid"), env.uuidGen k1)],
                none) := rfl
        rw [hme1] at hls
        have hrf1 : replaceFirst uuidPat (env.uuidGen k1)
            (a ++ chars ("\x7b\x7buuid\x7d\x7d") ++ b ++ chars ("\x7b\x7buuid\x7d\x7d") ++ c)
            = a ++ env.uuidGen k1 ++ b ++ chars ("\x7b\x7buuid\x7d\x7d") ++ c := by
          rw [hu, show a ++ chars ("\x7b\x7buuid\x7d\x7d") ++ b
              ++ chars ("\x7b\x7buuid\x7d\x7d") ++ c
            = a ++ chars ("\x7b\x7buuid\x7d\x7d") ++ (b ++ chars ("\x7b\x7buuid\x7d\x7d") ++ c)
            from by simp [List.append_assoc],
            replaceFirst_boundary _ (env.uuidGen k1) a
              (b ++ chars ("\x7b\x7buuid\x7d\x7d") ++ c) htkc ha']
          simp [List.append_assoc]
        rw [hrf1] at hls
        have hbf1 : braceFree (a ++ env.uuidGen k1 ++ b) :=
          braceFree_append (braceFree_append ha (hg k1)) hb
        have hx2' := braceFree_lb hbf1
        have hfind2 : findFirst uuidPat
            (a ++ env.uuidGen k1 ++ b ++ chars ("\x7b\x7buuid\x7d\x7d") ++ c)
            = some ((a ++ env.uuidGen k1 ++ b).length,
                (chars ("\x7b\x7buuid\x7d\x7d")).length, []) := by
          rw [hu, show a ++ env.uuidGen k1 ++ b ++ chars ("\x7b\x7buuid\x7d\x7d") ++ c
            = (a ++ env.uuidGen k1 ++ b) ++ chars ("\x7b\x7buuid\x7d\x7d") ++ c
            from by simp [List.append_assoc]]
          exact findFirst_boundary _ htkc _ c hx2'
        have hK2 : rMatches uuidPat
            (a ++ env.uuidGen k1 ++ b ++ chars ("\x7b\x7buuid\x7d\x7d") ++ c) = true := by
          unfold rMatches
          rw [hfind2]
          rfl
        rw [applyLoop.eq_def] at hls
        dsimp only at hls
        rw [hK2] at hls
        simp only [if_true] at hls
        cases f1 with
        | zero => simp at hls
        | succ f2 =>
          dsimp only at hls
          rw [show uuidPH.apply = uuidApply from rfl] at hls
          cases hap2 : uuidApply f2
              (a ++ env.uuidGen k1 ++ b ++ chars ("\x7b\x7buuid\x7d\x7d") ++ c)
              [(chars ("result"), env.uuidGen k1), (chars ("uuid"), env.uuidGen k1)]
              env stdSettings st1' with
          | none =>
            rw [hap2] at hls
            simp at hls
          | some pr2 =>
            rcases pr2 with ⟨res2, st2'⟩
            rw [hap2] at hls
            dsimp only at hls
            rw [show uuidPH.constant = false from rfl,
              show stdSettings.usePlaceholderStatistics = false from rfl] at hls
            simp only [Bool.false_eq_true, if_false] at hls
            obtain ⟨k2, prev2, hres2, hext2, hst2u, hcont2, hprev2⟩ :=
              uuidApply_spec _ _ _ _ _ _ _ _ hap2
            rcases res2 with ⟨r2, e2⟩
            dsimp only at hres2 hext2
            subst hres2
            subst hext2
            dsimp only at hls
            have hme2 : mergeEntries
                [(chars ("result"), env.uuidGen k1), (chars ("uuid"), env.uuidGen k1)] none
                (AppRes.entries ⟨env.uuidGen k2, [(chars ("uuid"), env.uuidGen k2)]⟩)
                = ([(chars ("result"), env.uuidGen k2), (chars ("uuid"), env.uuidGen k2)],
                    none) := rfl
            rw [hme2] at hls
            have hrf2 : replaceFirst uuidPat (env.uuidGen k2)
                (a ++ env.uuidGen k1 ++ b ++ chars ("\x7b\x7buuid\x7d\x7d") ++ c)
                = a ++ env.uuidGen k1 ++ b ++ env.uuidGen k2 ++ c := by
              rw [hu, show a ++ env.uuidGen k1 ++ b ++ chars ("\x7b\x7buuid\x7d\x7d") ++ c
                = (a ++ env.uuidGen k1 ++ b) ++ chars ("\x7b\x7buuid\x7d\x7d") ++ c
                from by simp [List.append_assoc],
                replaceFirst_boundary _ (env.uuidGen k2) _ c htkc hx2']
            rw [hrf2] at hls
            have hbf3 : ∀ ch ∈ a ++ env.uuidGen k1 ++ b ++ env.uuidGen k2 ++ c,
                ch ≠ '\x7b' :=
              braceFree_lb (braceFree_append (braceFree_append hbf1 (hg k2)) hc)
            have hK3 : rMatches uuidPat
                (a ++ env.uuidGen k1 ++ b ++ env.uuidGen k2 ++ c) = false :=
              rMatches_braceFree_false _ _ hbf3
            rw [applyLoop.eq_def] at hls
            dsimp only at hls
            rw [hK3] at hls
            simp only [Bool.false_eq_true, if_false] at hls
            have h4 := Option.some.inj hls
            refine ⟨env.uuidGen k1, env.uuidGen k2, ?_, ?_⟩
            · exact (congrArg (fun p => p.1) h4).symm
            · have hprev2' : prev2 = prev1 ++ [env.uuidGen k1] := hprev2 _ hst1u
              have hnm : env.uuidGen k2 ∉ prev2 := contains_false_not_mem hcont2
              rw [hprev2'] at hnm
              intro heq
              apply hnm
              rw [← heq]
              exact List.mem_append_right _ (List.mem_singleton.mpr rfl)


/-- Claim C8, witness: the amended theorem applied at the concrete
environment `envC8`, empty surrounding segments and fuel 2; the run
substitutes `ua` then `ub`. -/
theorem C8_uuid_distinct_witness :
    ∃ u1 u2, ((chars ("uaub"),
        [(chars ("result"), chars ("ub")), (chars ("uuid"), chars ("ub"))],
        ({ persistentVars := [], localStorage := [],
           usedUUIDs := some [chars ("ua"), chars ("ub")], uuidCounter := 2,
           selectionLog := [] } : PLState)) : Str × Ctx × PLState).1
      = [] ++ u1 ++ [] ++ u2 ++ [] ∧ u1 ≠ u2 :=
  C8_uuid_distinct envC8 st0 [] [] [] 2
    (chars ("uaub"),
      [(chars ("result"), chars ("ub")), (chars ("uuid"), chars ("ub"))],
      ({ persistentVars := [], localStorage := [],
         usedUUIDs := some [chars ("ua"), chars ("ub")], uuidCounter := 2,
         selectionLog := [] } : PLState))
    (fun ch h => absurd h (List.not_mem_nil ch))
    (fun ch h => absurd h (List.not_mem_nil ch))
    (fun ch h => absurd h (List.not_mem_nil ch))
    (fun n => by
      show braceFree (if n = 0 then chars ("ua") else chars ("ub"))
      unfold braceFree
      by_cases hn : n = 0
      · rw [if_pos hn]
        decide
      · rw [if_neg hn]
        decide)
    (by decide) rfl

theorem startsWithStr_nil (s : Str) : startsWithStr s [] = true := by
  cases s <;> rfl

theorem startsWithStr_iff (s tok : Str) :
    startsWithStr s tok = true ↔ ∃ r, s = tok ++ r := by
  induction tok generalizing s with
  | nil =>
    constructor
    · intro _
      exact ⟨s, rfl⟩
    · intro _
      exact startsWithStr_nil s
  | cons d ds ih =>
    cases s with
    | nil =>
      constructor
      · intro h
        cases h
      · rintro ⟨r, hr⟩
        cases hr
    | cons c cs =>
      rw [show startsWithStr (c :: cs) (d :: ds) = ((c == d) && startsWithStr cs ds)
        from rfl]
      rw [Bool.and_eq_true, beq_iff_eq, ih]
      constructor
      · rintro ⟨hc, r, hr⟩
        exact ⟨r, by rw [List.cons_append, hc, hr]⟩
      · rintro ⟨r, hr⟩
        rw [List.cons_append] at hr
        injection hr with h1 h2
        exact ⟨h1, r, h2⟩

theorem idxOfAux_step (tok s : Str) (i : Nat) :
    idxOfAux tok s i = if startsWithStr s tok then some i
      else match s with
        | [] => none
        | _ :: rest => idxOfAux tok rest (i + 1) := by
  cases s <;> simp only [idxOfAux]

theorem idxOfAux_isSome_iff (tok : Str) :
    ∀ (s : Str) (i : Nat),
      (idxOfAux tok s i).isSome = true ↔ ∃ u v, s = u ++ (tok ++ v) := by
  intro s
  induction s with
  | nil =>
    intro i
    rw [idxOfAux_step]
    by_cases hsw : startsWithStr [] tok = true
    · rw [if_pos hsw]
      simp only [Option.isSome_some, true_iff]
      obtain ⟨r, hr⟩ := (startsWithStr_iff [] tok).mp hsw
      exact ⟨[], r, hr⟩
    · rw [if_neg hsw]
      constructor
      · intro h
        simp at h
      · rintro ⟨u, v, huv⟩
        obtain ⟨hu, htv⟩ := List.append_eq_nil.mp huv.symm
        obtain ⟨ht, _⟩ := List.append_eq_nil.mp htv
        refine absurd ?_ hsw
        rw [ht]
        exact startsWithStr_nil []
  | cons c cs ih =>
    intro i
    rw [idxOfAux_step]
    by_cases hsw : startsWithStr (c :: cs) tok = true
    · rw [if_pos hsw]
      simp only [Option.isSome_some, true_iff]
      obtain ⟨r, hr⟩ := (startsWithStr_iff _ tok).mp hsw
      exact ⟨[], r, hr⟩
    · rw [if_neg hsw]
      dsimp only
      rw [ih (i + 1)]
      constructor
      · rintro ⟨u, v, huv⟩
        exact ⟨c :: u, v, by rw [huv, List.cons_append]⟩
      · rintro ⟨u, v, huv⟩
        cases u with
        | nil =>
          exact absurd ((startsWithStr_iff _ tok).mpr ⟨v, huv⟩) hsw
        | cons x xs =>
          rw [List.cons_append] at huv
          injection huv with h1 h2
          exact ⟨xs, v, h2⟩

theorem occursStr_iff (tok s : Str) :
    occursStr tok s = true ↔ ∃ u v, s = u ++ (tok ++ v) :=
  idxOfAux_isSome_iff tok s 0

theorem occursStr_take (tok s : Str) (i : Nat)
    (h : occursStr tok (s.take i) = true) : occursStr tok s = true := by
  obtain ⟨u, v, huv⟩ := (occursStr_iff tok _).mp h
  refine (occursStr_iff tok s).mpr ⟨u, v ++ s.drop i, ?_⟩
  conv_lhs => rw [← List.take_append_drop i s]
  rw [huv]
  simp [List.append_assoc]

theorem endsWith_decomp (s tok : Str) (h : endsWithStr s tok = true) :
    ∃ u, s = u ++ tok := by
  rw [endsWithStr] at h
  split_ifs at h with hle
  · refine ⟨s.take (s.length - tok.length), ?_⟩
    have hdrop : s.drop (s.length - tok.length) = tok := by simpa using h
    conv_lhs => rw [← List.take_append_drop (s.length - tok.length) s]
    rw [hdrop]

theorem endsWith_occurs (s tok : Str) (h : endsWithStr s tok = true) :
    occursStr tok s = true := by
  obtain ⟨u, hu⟩ := endsWith_decomp s tok h
  exact (occursStr_iff tok s).mpr ⟨u, [], by rw [hu, List.append_nil]⟩

theorem drop_append_len (x y : Str) (k : Nat) :
    (x ++ y).drop (x.length + k) = y.drop k := by
  rw [← List.drop_drop, List.drop_left]

theorem ends_append_big (x t tok : Str) (h : tok.length ≤ t.length) :
    endsWithStr (x ++ t) tok = endsWithStr t tok := by
  rw [endsWithStr, endsWithStr, List.length_append,
    if_pos (Nat.le_trans h (Nat.le_add_left _ _)), if_pos h,
    Nat.add_sub_assoc h, drop_append_len]

theorem getLast?_append_right (x t : Str) (ht : t ≠ []) :
    (x ++ t).getLast? = t.getLast? := by
  rw [← List.head?_reverse, ← List.head?_reverse, List.reverse_append]
  cases hrev : t.reverse with
  | nil => exact absurd (List.reverse_eq_nil_iff.mp hrev) ht
  | cons c cs => rfl

theorem ends_ne_last (x t tok : Str) (ht : t ≠ []) (htok : tok ≠ [])
    (hne : t.getLast? ≠ tok.getLast?) : endsWithStr (x ++ t) tok = false := by
  cases hE : endsWithStr (x ++ t) tok with
  | false => rfl
  | true =>
    obtain ⟨u, hu⟩ := endsWith_decomp _ _ hE
    have h1 : (x ++ t).getLast? = t.getLast? := getLast?_append_right x t ht
    have h2 : (x ++ t).getLast? = tok.getLast? := by
      rw [hu]
      exact getLast?_append_right u tok htok
    exact absurd (h1.symm.trans h2) hne

theorem segTail_last (seg : Str) (h : segTailOptColon seg = true) :
    seg.getLast? = some ':' := by
  unfold segTailOptColon at h
  split at h
  · rfl
  · next r =>
    split at h
    · next rr heq =>
      have hr : r ≠ [] := by
        intro h0
        rw [h0] at heq
        cases heq
      rw [show (' ' :: r) = [' '] ++ r from rfl, getLast?_append_right _ _ hr,
        ← List.head?_reverse, heq]
      rfl
    · cases h
  · cases h

theorem segIs_starts (seg : Str) (h : segIsShellOptColon seg = true) :
    startsWithStr seg (chars ("shell")) = true := by
  rw [segIsShellOptColon, Bool.and_eq_true] at h
  exact h.1

theorem scriptLB_occurs (p : Str) (h : scriptLBHolds p = true) :
    occursStr (chars ("shell")) p = true := by
  rw [scriptLBHolds] at h
  obtain ⟨j, hjmem, hseg⟩ := List.any_eq_true.mp h
  obtain ⟨r, hr⟩ := (startsWithStr_iff _ _).mp (segIs_starts _ hseg)
  refine (occursStr_iff _ p).mpr ⟨p.take j, r, ?_⟩
  conv_lhs => rw [← List.take_append_drop j p]
  rw [hr]

theorem scriptLB_last_colon (p : Str) (h : scriptLBHolds p = true) :
    p.getLast? = some ':' := by
  rw [scriptLBHolds] at h
  obtain ⟨j, hjmem, hseg⟩ := List.any_eq_true.mp h
  rw [segIsShellOptColon, Bool.and_eq_true] at hseg
  obtain ⟨hst, htl⟩ := hseg
  have htail_last : ((p.drop j).drop 5).getLast? = some ':' := segTail_last _ htl
  have h5 : (p.drop j).drop 5 ≠ [] := by
    intro h0
    rw [h0] at htail_last
    cases htail_last
  have hdj : p.drop j ≠ [] := by
    intro h0
    rw [h0] at h5
    exact h5 rfl
  have e1 : p.getLast? = (p.drop j).getLast? := by
    conv_lhs => rw [← List.take_append_drop j p]
    exact getLast?_append_right _ _ hdj
  have e2 : (p.drop j).getLast? = ((p.drop j).drop 5).getLast? := by
    conv_lhs => rw [← List.take_append_drop 5 (p.drop j)]
    exact getLast?_append_right _ _ h5
  rw [e1, e2, htail_last]

theorem scriptLB_at_boundary (a : Str) :
    scriptLBHolds (a ++ chars ("\x7b\x7bshell:")) = true := by
  rw [scriptLBHolds]
  apply List.any_eq_true.mpr
  refine ⟨a.length + 2, ?_, ?_⟩
  · apply List.mem_range.mpr
    rw [List.length_append]
    have : (chars ("\x7b\x7bshell:")).length = 8 := rfl
    omega
  · rw [drop_append_len]
    decide

theorem shellBinScan_step (pre s : Str) :
    shellBinScan pre s
      = match (if endsWithStr pre (chars ("shell")) then binMatchHere s else none) with
        | some v => some v
        | none => match s with
          | [] => none
          | c :: rest => shellBinScan (pre ++ [c]) rest := by
  cases s <;> simp only [shellBinScan]

theorem shellScriptScan_step (pre s : Str) :
    shellScriptScan pre s
      = match (if scriptLBHolds pre then upToTok (chars ("\x7d\x7d")) s else none) with
        | some v => some v
        | none => match s with
          | [] => none
          | c :: rest => shellScriptScan (pre ++ [c]) rest := by
  cases s <;> simp only [shellScriptScan]

theorem shellBinScan_walk (x : Str) : ∀ (pre rest : Str),
    (∀ i, i < x.length → endsWithStr (pre ++ x.take i) (chars ("shell")) = false) →
    shellBinScan pre (x ++ rest) = shellBinScan (pre ++ x) rest := by
  induction x with
  | nil =>
    intro pre rest _
    rw [List.nil_append, List.append_nil]
  | cons d xs ih =>
    intro pre rest h
    have h0 : endsWithStr pre (chars ("shell")) = false := by
      have h' := h 0 (by simp)
      rwa [List.take_zero, List.append_nil] at h'
    rw [List.cons_append, shellBinScan_step, h0]
    simp only [Bool.false_eq_true, if_false]
    have hcond : ∀ i, i < xs.length →
        endsWithStr ((pre ++ [d]) ++ xs.take i) (chars ("shell")) = false := by
      intro i hi
      have h2 := h (i + 1) (by simpa using Nat.succ_lt_succ hi)
      rw [List.take_succ_cons] at h2
      rw [List.append_assoc]
      exact h2
    rw [ih (pre ++ [d]) rest hcond, List.append_assoc]
    rfl

theorem shellScriptScan_walk (x : Str) : ∀ (pre rest : Str),
    (∀ i, i < x.length → scriptLBHolds (pre ++ x.take i) = false) →
    shellScriptScan pre (x ++ rest) = shellScriptScan (pre ++ x) rest := by
  induction x with
  | nil =>
    intro pre rest _
    rw [List.nil_append, List.append_nil]
  | cons d xs ih =>
    intro pre rest h
    have h0 : scriptLBHolds pre = false := by
      have h' := h 0 (by simp)
      rwa [List.take_zero, List.append_nil] at h'
    rw [List.cons_append, shellScriptScan_step, h0]
    simp only [Bool.false_eq_true, if_false]
    have hcond : ∀ i, i < xs.length →
        scriptLBHolds ((pre ++ [d]) ++ xs.take i) = false := by
      intro i hi
      have h2 := h (i + 1) (by simpa using Nat.succ_lt_succ hi)
      rw [List.take_succ_cons] at h2
      rw [List.append_assoc]
      exact h2
    rw [ih (pre ++ [d]) rest hcond, List.append_assoc]
    rfl

theorem endsWith_a_shell (a : Str) (hocc : occursStr (chars ("shell")) a = false) :
    endsWithStr a (chars ("shell")) = false := by
  cases hE : endsWithStr a (chars ("shell")) with
  | false => rfl
  | true =>
    have h1 := endsWith_occurs _ _ hE
    rw [hocc] at h1
    cases h1

theorem shellBinArg_tmpl (a : Str) (hocc : occursStr (chars ("shell")) a = false) :
    shellBinArg (a ++ chars ("\x7b\x7bshell:false\x7d\x7dB")) = some [] := by
  have hW1 : ∀ i, i < a.length →
      endsWithStr (([] : Str) ++ a.take i) (chars ("shell")) = false := by
    intro i hi
    rw [List.nil_append]
    cases hE : endsWithStr (a.take i) (chars ("shell")) with
    | false => rfl
    | true =>
      have h1 := occursStr_take _ a i (endsWith_occurs _ _ hE)
      rw [hocc] at h1
      cases h1
  have hW2 : ∀ i, i < (chars ("\x7b\x7bshell")).length →
      endsWithStr (a ++ (chars ("\x7b\x7bshell")).take i) (chars ("shell")) = false := by
    intro i hi
    have hi7 : i < 7 := hi
    interval_cases i
    · rw [show (chars ("\x7b\x7bshell")).take 0 = [] from rfl, List.append_nil]
      exact endsWith_a_shell a hocc
    · rw [show (chars ("\x7b\x7bshell")).take 1 = chars ("\x7b") from rfl]
      exact ends_ne_last a _ _ (by decide) (by decide) (by decide)
    · rw [show (chars ("\x7b\x7bshell")).take 2 = chars ("\x7b\x7b") from rfl]
      exact ends_ne_last a _ _ (by decide) (by decide) (by decide)
    · rw [show (chars ("\x7b\x7bshell")).take 3 = chars ("\x7b\x7bs") from rfl]
      exact ends_ne_last a _ _ (by decide) (by decide) (by decide)
    · rw [show (chars ("\x7b\x7bshell")).take 4 = chars ("\x7b\x7bsh") from rfl]
      exact ends_ne_last a _ _ (by decide) (by decide) (by decide)
    · rw [show (chars ("\x7b\x7bshell")).take 5 = chars ("\x7b\x7bshe") from rfl,
        ends_append_big a _ _ (by decide)]
      decide
    · rw [show (chars ("\x7b\x7bshell")).take 6 = chars ("\x7b\x7bshel") from rfl,
        ends_append_big a _ _ (by decide)]
      decide
  rw [shellBinArg,
    show (chars ("\x7b\x7bshell:false\x7d\x7dB") : Str)
      = chars ("\x7b\x7bshell") ++ chars (":false\x7d\x7dB") from rfl,
    shellBinScan_walk a ([]) _ hW1, List.nil_append,
    shellBinScan_walk (chars ("\x7b\x7bshell")) a _ hW2,
    shellBinScan_step,
    ends_append_big a _ _ (by decide),
    show endsWithStr (chars ("\x7b\x7bshell")) (chars ("shell")) = true from by decide]
  simp only [if_true]
  rw [show binMatchHere (chars (":false\x7d\x7dB")) = some [] from by decide]

theorem shellScriptArg_tmpl (a : Str) (hocc : occursStr (chars ("shell")) a = false) :
    shellScriptArg (a ++ chars ("\x7b\x7bshell:false\x7d\x7dB"))
      = some (chars ("false")) := by
  have hS1 : ∀ i, i < a.length →
      scriptLBHolds (([] : Str) ++ a.take i) = false := by
    intro i hi
    rw [List.nil_append]
    cases hE : scriptLBHolds (a.take i) with
    | false => rfl
    | true =>
      have h1 := occursStr_take _ a i (scriptLB_occurs _ hE)
      rw [hocc] at h1
      cases h1
  have hS2 : ∀ i, i < (chars ("\x7b\x7bshell:")).length →
      scriptLBHolds (a ++ (chars ("\x7b\x7bshell:")).take i) = false := by
    intro i hi
    have hi8 : i < 8 := hi
    have hgen : ∀ (t : Str), t ≠ [] → t.getLast? ≠ some ':' →
        scriptLBHolds (a ++ t) = false := by
      intro t ht hne
      cases hE : scriptLBHolds (a ++ t) with
      | false => rfl
      | true =>
        have h1 := scriptLB_last_colon _ hE
        rw [getLast?_append_right a t ht] at h1
        exact absurd h1 hne
    interval_cases i
    · rw [show (chars ("\x7b\x7bshell:")).take 0 = [] from rfl, List.append_nil]
      cases hE : scriptLBHolds a with
      | false => rfl
      | true =>
        have h1 := scriptLB_occurs _ hE
        rw [hocc] at h1
        cases h1
    · rw [show (chars ("\x7b\x7bshell:")).take 1 = chars ("\x7b") from rfl]
      exact hgen _ (by decide) (by decide)
    · rw [show (chars ("\x7b\x7bshell:")).take 2 = chars ("\x7b\x7b") from rfl]
      exact hgen _ (by decide) (by decide)
    · rw [show (chars ("\x7b\x7bshell:")).take 3 = chars ("\x7b\x7bs") from rfl]
      exact hgen _ (by decide) (by decide)
    · rw [show (chars ("\x7b\x7bshell:")).take 4 = chars ("\x7b\x7bsh") from rfl]
      exact hgen _ (by decide) (by decide)
    · rw [show (chars ("\x7b\x7bshell:")).take 5 = chars ("\x7b\x7bshe") from rfl]
      exact hgen _ (by decide) (by decide)
    · rw [show (chars ("\x7b\x7bshell:")).take 6 = chars ("\x7b\x7bshel") from rfl]
      exact hgen _ (by decide) (by decide)
    · rw [show (chars ("\x7b\x7bshell:")).take 7 = chars ("\x7b\x7bshell") from rfl]
      exact hgen _ (by decide) (by decide)
  rw [shellScriptArg,
    show (chars ("\x7b\x7bshell:false\x7d\x7dB") : Str)
      = chars ("\x7b\x7bshell:") ++ chars ("false\x7d\x7dB") from rfl,
    shellScriptScan_walk a ([]) _ hS1, List.nil_append,
    shellScriptScan_walk (chars ("\x7b\x7bshell:")) a _ hS2,
    shellScriptScan_step, scriptLB_at_boundary a]
  simp only [if_true]
  rw [show upToTok (chars ("\x7d\x7d")) (chars ("false\x7d\x7dB"))
    = some (chars ("false")) from by decide]

theorem shellApply_tmpl (f : Nat) (a : Str) (ctx : Ctx) (env : Env) (st : PLState)
    (msg : Str)
    (hocc : occursStr (chars ("shell")) a = false)
    (hexec : env.execShell (chars ("/bin/zsh")) (chars ("false")) = Except.error msg) :
    shellApply f (a ++ chars ("\x7b\x7bshell:false\x7d\x7dB")) ctx env stdSettings st
      = some (⟨[], [(chars ("shell"), [])]⟩, st) := by
  unfold shellApply
  rw [shellBinArg_tmpl a hocc, shellScriptArg_tmpl a hocc]
  dsimp only
  rw [show jsOrStr (Option.map trimStr (some ([] : Str))) (chars ("/bin/zsh"))
      = chars ("/bin/zsh") from rfl,
    show stdSettings.useUserShellEnvironment = false from rfl]
  simp only [Bool.false_eq_true, if_false]
  rw [List.nil_append]
  rw [show (chars ("false")).isEmpty = false from rfl]
  simp only [Bool.false_eq_true, if_false]
  rw [hexec]

theorem processEntry_shell (reg : List (KeyT × Placeholder)) (env : Env) (fuel : Nat)
    (tmpl : Str) (ctx : Ctx) (st : PLState)
    (hK : rMatches shellPat tmpl = true) :
    processEntry reg env stdSettings fuel
        ((chars ("\x7b\x7bshell( .*)?:(.|[ \\n\\r\\s])*?\x7d\x7d"), shellPat), shellPH)
        tmpl ctx st
      = match loopKeys shellPH env stdSettings fuel [shellPat] tmpl ctx none st with
        | none => none
        | some (s', c', _, st') => some (s', c', st') := by
  unfold processEntry
  dsimp only
  rw [show shellPH.aliases = [] from rfl]
  simp only [List.filter_nil]
  rw [hK]
  simp only [if_true, List.nil_append, List.isEmpty]
  rw [show shellPH.result_keys = none from rfl]
  simp only [Option.map]
  rw [show shellPH.dependencies = [] from rfl]
  simp only [List.foldl, List.append_nil]
  simp

/-- Claim C9, counterexample: the claim fails for templates whose
surrounding text re-triggers the script extraction.  The lookbehind
`(?<=shell( .*)?:)` of the extraction (placeholders.ts:2467) scans the
full template, so with the prefix `A = "shell:echo hi;: "` the first
position whose consumed prefix ends in `shell:` lies inside `A`, and the
code executes the script `echo hi;: {{shell:false` — not the directive's
own script `false`.  Under an executor that errors exactly on `false` and
prints `hi` on anything else, `A{{shell:false}}B` expands to
`shell:echo hi;: hiB` with `result`/`shell` set to `hi`: the directive is
not substituted with the empty string although its named script fails. -/
theorem C9_counterexample :
    envC9.execShell (chars ("/bin/zsh")) (chars ("false"))
      = Except.error (chars ("fail"))
    ∧ bulkApply 1 subregShell envC9 stdSettings
        (chars ("shell:echo hi;: \x7b\x7bshell:false\x7d\x7dB")) [] st0
      = some (chars ("shell:echo hi;: hiB"),
          [(chars ("result"), chars ("hi")), (chars ("shell"), chars ("hi"))], st0) :=
  ⟨rfl, by decide⟩

/-- Claim C9, amended: expanding `A{{shell:false}}B` when the shell
collaborator reports an error substitutes the empty string for the shell
directive and returns `AB` with the `result` and `shell` context fields
empty and the state untouched — provided the prefix `A` is brace-free and
does not contain the letters `shell`, so that the full-template argument
extraction cannot fire before the directive; the counterexample shows the
proviso is necessary.  The error is absorbed inside the evaluator and
expansion of the surrounding text completes normally. -/
theorem C9_shell_error_resolves_empty (env : Env) (st : PLState) (a msg : Str)
    (fuel : Nat)
    (ha : braceFree a)
    (hocc : occursStr (chars ("shell")) a = false)
    (hexec : env.execShell (chars ("/bin/zsh")) (chars ("false")) = Except.error msg) :
    bulkApply (fuel + 1) subregShell env stdSettings
      (a ++ chars ("\x7b\x7bshell:false\x7d\x7dB")) [] st
    = some (a ++ chars ("B"),
        [(chars ("result"), []), (chars ("shell"), [])], st) := by
  have hmeB : matchEnd shellPat (chars ("\x7b\x7bshell:false\x7d\x7dB"))
      = some (15, [(2, chars ("e"))]) := by decide
  have ha' : ∀ ch ∈ a, ch ≠ '\x7b' := braceFree_lb ha
  have hfind : findFirst shellPat (a ++ chars ("\x7b\x7bshell:false\x7d\x7dB"))
      = some (a.length, 15, [(2, chars ("e"))]) := by
    have hshape : shellPat = .cat (.cc (.single '\x7b')) (litThen (chars ("\x7bshell"))
        (.cat (.optG (.group 1 (.cat (.cc (.single ' ')) (.starG (.cc .dot)))))
          (.cat (.cc (.single ':'))
            (.cat (.starL (.group 2 (.alt (.cc .dot) (.cc .spaceNl))))
              (rlit (chars ("\x7d\x7d"))))))) := rfl
    rw [findFirst, hshape, findFirstAux_skip _ a _ 0 ha', ← hshape, Nat.zero_add]
    exact findFirstAux_hit _ _ _ _ _ hmeB
  have hrm1 : rMatches shellPat (a ++ chars ("\x7b\x7bshell:false\x7d\x7dB")) = true := by
    unfold rMatches
    rw [hfind]
    rfl
  have hrf : replaceFirst shellPat [] (a ++ chars ("\x7b\x7bshell:false\x7d\x7dB"))
      = a ++ chars ("B") := by
    rw [replaceFirst, hfind]
    dsimp only
    rw [List.take_left, drop_append_len,
      show (chars ("\x7b\x7bshell:false\x7d\x7dB")).drop 15 = chars ("B") from rfl,
      List.append_nil]
  have hB : braceFree (chars ("B")) := by
    unfold braceFree
    decide
  have hrm2 : rMatches shellPat (a ++ chars ("B")) = false :=
    rMatches_braceFree_false _ _ (braceFree_lb (braceFree_append ha hB))
  have hloopf : applyLoop shellPH shellPat env stdSettings fuel (a ++ chars ("B"))
      [(chars ("result"), []), (chars ("shell"), [])] none st
      = some (a ++ chars ("B"),
          [(chars ("result"), []), (chars ("shell"), [])], none, st) := by
    rw [applyLoop.eq_def]
    dsimp only
    rw [hrm2]
    simp
  have hloop1 : applyLoop shellPH shellPat env stdSettings (fuel + 1)
      (a ++ chars ("\x7b\x7bshell:false\x7d\x7dB")) [] none st
      = some (a ++ chars ("B"),
          [(chars ("result"), []), (chars ("shell"), [])], none, st) := by
    simp only [applyLoop]
    rw [hrm1]
    simp only [if_true]
    rw [show shellPH.apply = shellApply from rfl,
      shellApply_tmpl fuel a [] env st msg hocc hexec]
    dsimp only
    rw [show shellPH.constant = false from rfl,
      show stdSettings.usePlaceholderStatistics = false from rfl]
    simp only [Bool.false_eq_true, if_false]
    rw [hrf]
    rw [show mergeEntries [] none
        (AppRes.entries ⟨[], [(chars ("shell"), [])]⟩)
      = ([(chars ("result"), ([] : Str)), (chars ("shell"), ([] : Str))], none) from rfl]
    exact hloopf
  rw [show bulkApply (fuel + 1) subregShell env stdSettings
        (a ++ chars ("\x7b\x7bshell:false\x7d\x7dB")) [] st
      = processEntries subregShell env stdSettings (fuel + 1) subregShell
        (a ++ chars ("\x7b\x7bshell:false\x7d\x7dB")) [] st from rfl]
  rw [show subregShell
    = [((chars ("\x7b\x7bshell( .*)?:(.|[ \\n\\r\\s])*?\x7d\x7d"), shellPat), shellPH)]
    from rfl]
  simp only [processEntries]
  rw [processEntry_shell _ env _ _ [] st hrm1, loopKeys_single, hloop1]

/-- Claim C9, witness: the theorem applied at the default environment
(whose shell executor always fails), `A` as the prefix and fuel 1. -/
theorem C9_shell_error_witness :
    bulkApply (0 + 1) subregShell envDefault stdSettings
      (chars ("A") ++ chars ("\x7b\x7bshell:false\x7d\x7dB")) [] st0
    = some (chars ("A") ++ chars ("B"),
        [(chars ("result"), []), (chars ("shell"), [])], st0) :=
  C9_shell_error_resolves_empty envDefault st0 (chars ("A")) (chars ("fail")) 0
    (by unfold braceFree; decide) (by decide) rfl
